import Mathlib

/-!
Shallow embedding of the anti-abuse core of `els-feedback-proxy`
(package `internal/security`): the challenge manager with optional
proof-of-work (source file with `VerifySubmission`, `registerFailure`,
`buildPoWMessage`, `hasLeadingZeroBits`), the fixed-window rate limiter
and duplicate detector (`ratelimit.go`), and the remote-backed variants
with local fallback (`redis_limiter.go`, `redis_dedupe.go`).

Modelling conventions:
* Go `time.Time` / `time.Duration` are modelled as `Int` nanoseconds
  (Go durations are nanosecond counts; `time.Unix(n, 0)` is
  `n * 1000000000`).  The current time `time.Now()` becomes an explicit
  `now : Int` argument.  `time.Time.Sub` saturates at the `Duration`
  (int64) bounds, and the `delta = -delta` statement is two's-complement
  int64 negation, which maps `minDuration` to itself; both are modelled
  explicitly (`subDuration`, `wrap64`).
* Go maps become association lists `List (String × α)` with
  first-occurrence lookup; `delete` and the cleanup range-loops become
  `List.filter`.
* `[]byte` becomes `List Nat` (byte values); `[]byte(s)` for a string is
  UTF-8 encoding, written out explicitly as `strBytes`.
* The SHA-256 and HMAC-SHA-256 primitives from Go's standard library are
  opaque to the program logic; they are passed in as a `HashPrims`
  parameter.  Everything the repository itself computes (message
  construction, hex encoding, leading-zero-bit counting, comparisons,
  state updates) is translated concretely.
* `subtle.ConstantTimeCompare(a, b) == 1` is functionally byte-string
  equality, and is modelled as string equality (the timing property
  itself is outside the embedding).
-/

/-- First-occurrence lookup in an association list (a Go map read). -/
def alookup {α : Type} : List (String × α) → String → Option α
  | [], _ => none
  | (k, v) :: rest, key => if k = key then some v else alookup rest key

/-- Insert or replace a binding (a Go map write). -/
def ainsert {α : Type} : List (String × α) → String → α → List (String × α)
  | [], key, v => [(key, v)]
  | (k, w) :: rest, key, v =>
    if k = key then (key, v) :: rest else (k, w) :: ainsert rest key v

/-- Remove a binding (a Go map `delete`). -/
def aerase {α : Type} (l : List (String × α)) (key : String) : List (String × α) :=
  l.filter (fun p => !decide (p.1 = key))

/-- UTF-8 encoding of a single character, as Go's `[]byte(string)` produces. -/
def charUtf8 (c : Char) : List Nat :=
  if c.toNat < 128 then [c.toNat]
  else if c.toNat < 2048 then [192 + c.toNat / 64, 128 + c.toNat % 64]
  else if c.toNat < 65536 then
    [224 + c.toNat / 4096, 128 + c.toNat / 64 % 64, 128 + c.toNat % 64]
  else
    [240 + c.toNat / 262144, 128 + c.toNat / 4096 % 64, 128 + c.toNat / 64 % 64,
     128 + c.toNat % 64]

/-- UTF-8 bytes of a string, Go's `[]byte(s)`. -/
def strBytes (s : String) : List Nat :=
  (s.data.map charUtf8).flatten

/-- Go's `unicode.IsSpace`: the Unicode White_Space code points. -/
def isSpaceGo (c : Char) : Bool :=
  c.toNat = 9 ∨ c.toNat = 10 ∨ c.toNat = 11 ∨ c.toNat = 12 ∨ c.toNat = 13 ∨
  c.toNat = 32 ∨ c.toNat = 133 ∨ c.toNat = 160 ∨ c.toNat = 5760 ∨
  (8192 ≤ c.toNat ∧ c.toNat ≤ 8202) ∨ c.toNat = 8232 ∨ c.toNat = 8233 ∨
  c.toNat = 8239 ∨ c.toNat = 8287 ∨ c.toNat = 12288

/-- Go's `strings.TrimSpace`: drop Unicode white space from both ends.
(Structurally recursive, unlike `String.trim`, so it evaluates in the
kernel.) -/
def trimGo (s : String) : String :=
  String.mk (((s.data.dropWhile isSpaceGo).reverse.dropWhile isSpaceGo).reverse)

/-- Go's `strings.ToLower` restricted to its ASCII action (every string
the protocol lower-cases is ASCII hex or a header token). -/
def toLowerStr (s : String) : String :=
  String.mk (s.data.map Char.toLower)

/-- Go's `strings.ToUpper` restricted to its ASCII action (applied to
the HTTP method). -/
def toUpperStr (s : String) : String :=
  String.mk (s.data.map Char.toUpper)

/-- Lower-case hex digit, as `encoding/hex` uses. -/
def hexDigit (n : Nat) : Char :=
  if n < 10 then Char.ofNat (48 + n) else Char.ofNat (87 + n)

/-- Two lower-case hex digits of one byte. -/
def hexByte (b : Nat) : String :=
  String.mk [hexDigit (b / 16 % 16), hexDigit (b % 16)]

/-- Go's `hex.EncodeToString`: lower-case hex of a byte sequence. -/
def hexEncode (bs : List Nat) : String :=
  String.join (bs.map hexByte)

/-- Go's `strconv.ParseInt(s, 10, 64)`: optional sign, at least one ASCII
digit, all digits, and the value must fit in a signed 64-bit integer. -/
def parseInt64 (s : String) : Option Int :=
  let signAndDigits : Int × List Char :=
    match s.data with
    | '+' :: rest => (1, rest)
    | '-' :: rest => (-1, rest)
    | l => (1, l)
  let sign := signAndDigits.1
  let digits := signAndDigits.2
  if digits.isEmpty then none
  else if digits.all Char.isDigit then
    let n : Nat := digits.foldl (fun a c => a * 10 + (c.toNat - 48)) 0
    let v : Int := sign * (n : Int)
    if -(2 ^ 63) ≤ v ∧ v ≤ 2 ^ 63 - 1 then some v else none
  else none

/-- Nanoseconds per second: `time.Unix(n, 0)` is `n * nsPerSecond`. -/
def nsPerSecond : Int := 1000000000

/-- `time.maxDuration`: 2^63 - 1 nanoseconds. -/
def maxDuration : Int := 9223372036854775807

/-- `time.minDuration`: -2^63 nanoseconds. -/
def minDuration : Int := -9223372036854775808

/-- Two's-complement wraparound into the signed 64-bit range, the
behaviour of Go int64 arithmetic on overflow (2^63 = 9223372036854775808,
2^64 = 18446744073709551616). -/
def wrap64 (x : Int) : Int :=
  (x + 9223372036854775808) % 18446744073709551616 - 9223372036854775808

/-- Go `t.Sub(u)` on nanosecond instants: the exact difference, clamped
to `minDuration` / `maxDuration` when it overflows the int64
`time.Duration` range. -/
def subDuration (t u : Int) : Int :=
  if t - u < minDuration then minDuration
  else if maxDuration < t - u then maxDuration
  else t - u

/-- The abstract cryptographic primitives the challenge manager consumes:
`crypto/sha256.Sum256` and `crypto/hmac` keyed SHA-256, both mapping byte
sequences to digest byte sequences. -/
structure HashPrims where
  sha256 : List Nat → List Nat
  hmacSha256 : List Nat → List Nat → List Nat

/-- `ChallengeBundle` as returned to the client (PoW-enabled version). -/
structure ChallengeBundle where
  challengeID : String
  clientSecret : String
  nonce : String
  powBits : Int
  powSalt : String
  expiresAt : Int
  deriving DecidableEq, Repr

/-- Server-side `challengeRecord`. -/
structure ChallengeRecord where
  bundle : ChallengeBundle
  issuedIP : String
  used : Bool
  failCount : Int
  deriving DecidableEq, Repr

/-- `ChallengeManager` state: configuration plus the two maps. -/
structure ChallengeManager where
  ttl : Int
  timestampSkew : Int
  failThreshold : Int
  blockDuration : Int
  records : List (String × ChallengeRecord)
  blockedClientIP : List (String × Int)
  deriving DecidableEq, Repr

/-- The typed outcomes of `VerifySubmission` (`nil` success and the
package-level error values). -/
inductive VerifyResult where
  | ok
  | challengeMissing
  | challengeExpired
  | challengeUsed
  | signatureInvalid
  | timestampInvalid
  | powMissing
  | powInvalid
  | clientBlocked
  | challengeIPMismatch
  deriving DecidableEq, Repr

/-- `ChallengeManager.cleanup`: drop expired records
(`record.Bundle.ExpiresAt.Before(now)`) and expired blocks
(`now.After(blockedUntil)`). -/
def cleanup (now : Int) (m : ChallengeManager) : ChallengeManager :=
  { m with
    records := m.records.filter (fun p => !decide (p.2.bundle.expiresAt < now)),
    blockedClientIP := m.blockedClientIP.filter (fun p => !decide (now > p.2)) }

/-- The blocked-client test at the top of `VerifySubmission`:
`blockedUntil, blocked := m.blockedClientIP[clientIP]; blocked && now.Before(blockedUntil)`. -/
def isBlockedAt (l : List (String × Int)) (clientIP : String) (now : Int) : Bool :=
  match alookup l clientIP with
  | some blockedUntil => decide (now < blockedUntil)
  | none => false

/-- `ChallengeManager.Issue` (PoW version).  The four random strings
produced by `randomHex` are passed in explicitly. -/
def ChallengeManager.Issue (m : ChallengeManager) (now : Int) (clientIP : String)
    (powBits : Int) (challengeID clientSecret nonce powSalt : String) :
    ChallengeBundle × ChallengeManager :=
  let m := cleanup now m
  let bundle : ChallengeBundle :=
    { challengeID := challengeID, clientSecret := clientSecret, nonce := nonce,
      powBits := powBits, powSalt := powSalt, expiresAt := now + m.ttl }
  let record : ChallengeRecord := ⟨bundle, clientIP, false, 0⟩
  (bundle, { m with records := ainsert m.records challengeID record })

/-- `ChallengeManager.registerFailure`: bump the record's `FailCount`;
at the threshold, block the client for `blockDuration` and delete the
record. -/
def registerFailure (m : ChallengeManager) (now : Int) (clientIP challengeID : String)
    (record : ChallengeRecord) : ChallengeManager :=
  let record := { record with failCount := record.failCount + 1 }
  if record.failCount ≥ m.failThreshold then
    { m with
      blockedClientIP := ainsert m.blockedClientIP clientIP (now + m.blockDuration),
      records := aerase m.records challengeID }
  else
    { m with records := ainsert m.records challengeID record }

/-- `buildPoWMessage`: `UPPER(method)\npath\ntimestamp\nbodyHashHex\nchallengeID\npowSalt\npowNonce`. -/
def buildPoWMessage (method path timestampRaw bodyHashHex challengeID powSalt powNonce : String) :
    String :=
  toUpperStr method ++ "\n" ++ path ++ "\n" ++ timestampRaw ++ "\n" ++ bodyHashHex ++ "\n"
    ++ challengeID ++ "\n" ++ powSalt ++ "\n" ++ powNonce

/-- `hasLeadingZeroBits(digest, bits)`, translated clause by clause from
the Go loop (including the `byte(0xFF << (8-bits))` mask truncation). -/
def hasLeadingZeroBits : List Nat → Int → Bool
  | [], bits => decide (bits ≤ 0)
  | b :: rest, bits =>
    if bits ≤ 0 then true
    else if 8 ≤ bits then
      if b ≠ 0 then false else hasLeadingZeroBits rest (bits - 8)
    else
      decide ((b &&& ((255 <<< (8 - bits).toNat) % 256)) = 0)

/-- The canonical signing text
`UPPER(method)\npath\ntimestamp\nbodyHashHex\nnonce`. -/
def signingTextOf (record : ChallengeRecord) (timestampRaw method path bodyHashHex : String) :
    String :=
  toUpperStr method ++ "\n" ++ path ++ "\n" ++ timestampRaw ++ "\n" ++ bodyHashHex
    ++ "\n" ++ record.bundle.nonce

/-- The expected signature: lower-hex of
`HMAC-SHA256(clientSecret, signingText)`. -/
def expectedSig (h : HashPrims) (record : ChallengeRecord)
    (timestampRaw method path bodyHashHex : String) : String :=
  hexEncode (h.hmacSha256 (strBytes record.bundle.clientSecret)
    (strBytes (signingTextOf record timestampRaw method path bodyHashHex)))

/-- The signature stage of `VerifySubmission` (lines building
`signingText`, the HMAC, the constant-time compare, and the success
path `record.Used = true; delete(m.records, challengeID)`). -/
def signatureStage (h : HashPrims) (mc : ChallengeManager) (now : Int)
    (clientIP challengeID : String) (record : ChallengeRecord)
    (timestampRaw signatureRaw method path bodyHashHex : String) :
    VerifyResult × ChallengeManager :=
  let expectedSignature := expectedSig h record timestampRaw method path bodyHashHex
  if toLowerStr expectedSignature ≠ toLowerStr signatureRaw then
    (.signatureInvalid, registerFailure mc now clientIP challengeID record)
  else
    (.ok, { mc with records := aerase mc.records challengeID })

/-- The PoW stage of `VerifySubmission` (the `record.Bundle.PoWBits > 0`
block), falling through to the signature stage. -/
def powStage (h : HashPrims) (mc : ChallengeManager) (now : Int)
    (clientIP challengeID : String) (record : ChallengeRecord)
    (timestampRaw signatureRaw powNonceRaw powHashRaw method path bodyHashHex : String) :
    VerifyResult × ChallengeManager :=
  if record.bundle.powBits > 0 then
    let powNonce := trimGo powNonceRaw
    if powNonce = "" then
      (.powMissing, registerFailure mc now clientIP challengeID record)
    else if (strBytes powNonce).length > 128 then
      (.powInvalid, registerFailure mc now clientIP challengeID record)
    else
      let powMessage :=
        buildPoWMessage method path timestampRaw bodyHashHex challengeID
          record.bundle.powSalt powNonce
      let powDigest := h.sha256 (strBytes powMessage)
      if !hasLeadingZeroBits powDigest record.bundle.powBits then
        (.powInvalid, registerFailure mc now clientIP challengeID record)
      else if trimGo powHashRaw ≠ "" ∧
          toLowerStr (hexEncode powDigest) ≠ toLowerStr (trimGo powHashRaw) then
        (.powInvalid, registerFailure mc now clientIP challengeID record)
      else
        signatureStage h mc now clientIP challengeID record
          timestampRaw signatureRaw method path bodyHashHex
  else
    signatureStage h mc now clientIP challengeID record
      timestampRaw signatureRaw method path bodyHashHex

/-- The body of `VerifySubmission` after the initial cleanup, on the
cleaned state `mc`: blocked-client check, record lookup, used/expiry/IP
checks, timestamp parsing and skew check, body hash, then the PoW and
signature stages. -/
def verifyChecks (h : HashPrims) (mc : ChallengeManager) (now : Int)
    (clientIP challengeID timestampRaw signatureRaw powNonceRaw powHashRaw method path : String)
    (body : List Nat) : VerifyResult × ChallengeManager :=
  if isBlockedAt mc.blockedClientIP clientIP now then (.clientBlocked, mc)
  else
    match alookup mc.records challengeID with
    | none => (.challengeMissing, mc)
    | some record =>
      if record.used then (.challengeUsed, mc)
      else if record.bundle.expiresAt < now then
        (.challengeExpired, { mc with records := aerase mc.records challengeID })
      else if record.issuedIP ≠ clientIP then (.challengeIPMismatch, mc)
      else
        match parseInt64 timestampRaw with
        | none => (.timestampInvalid, mc)
        | some ts =>
          let delta := subDuration now (ts * nsPerSecond)
          let delta := if delta < 0 then wrap64 (-delta) else delta
          if delta > mc.timestampSkew then (.timestampInvalid, mc)
          else
            powStage h mc now clientIP challengeID record
              timestampRaw signatureRaw powNonceRaw powHashRaw method path
              (hexEncode (h.sha256 body))

/-- `ChallengeManager.VerifySubmission` (PoW version): cleanup at `now`,
then the checks on the cleaned state. -/
def ChallengeManager.VerifySubmission (m : ChallengeManager) (h : HashPrims) (now : Int)
    (clientIP challengeID timestampRaw signatureRaw powNonceRaw powHashRaw method path : String)
    (body : List Nat) : VerifyResult × ChallengeManager :=
  verifyChecks h (cleanup now m) now clientIP challengeID timestampRaw signatureRaw
    powNonceRaw powHashRaw method path body

/-- `fixedWindowRecord`: window start and count. -/
structure FixedWindowLimiter where
  records : List (String × (Int × Int))
  deriving DecidableEq, Repr

/-- `FixedWindowLimiter.cleanupExpired`: delete keys whose window start
is at least `2*window` old. -/
def cleanupExpired (l : FixedWindowLimiter) (now : Int) (window : Int) : FixedWindowLimiter :=
  { records := l.records.filter (fun p => !decide (now - p.2.1 ≥ window * 2)) }

/-- `FixedWindowLimiter.Allow(key, limit, window)`. -/
def FixedWindowLimiter.Allow (l : FixedWindowLimiter) (now : Int) (key : String)
    (limit : Int) (window : Int) : Bool × FixedWindowLimiter :=
  if limit ≤ 0 then (false, l)
  else
    match alookup l.records key with
    | none =>
      (true, cleanupExpired { records := ainsert l.records key (now, 1) } now window)
    | some record =>
      if now - record.1 ≥ window then
        (true, cleanupExpired { records := ainsert l.records key (now, 1) } now window)
      else if record.2 ≥ limit then (false, l)
      else (true, { records := ainsert l.records key (record.1, record.2 + 1) })

/-- `DuplicateDetector`: key to expiry instant. -/
structure DuplicateDetector where
  records : List (String × Int)
  deriving DecidableEq, Repr

/-- `DuplicateDetector.SeenRecently(key, window)`: seen if an entry
exists with `now.Before(expireAt)`; otherwise record `now+window` and
sweep entries with `now.After(expireAt)`. -/
def DuplicateDetector.SeenRecently (d : DuplicateDetector) (now : Int) (key : String)
    (window : Int) : Bool × DuplicateDetector :=
  match alookup d.records key with
  | some expireAt =>
    if now < expireAt then (true, d)
    else
      (false, ⟨(ainsert d.records key (now + window)).filter
          (fun p => !decide (now > p.2))⟩)
  | none =>
    (false, ⟨(ainsert d.records key (now + window)).filter
        (fun p => !decide (now > p.2))⟩)

/-- `RedisFixedWindowLimiter.Allow` with the remote script call's
outcome made explicit: `Except.error` is a transport error or timeout,
`Except.ok r` the script's integer reply (`result == 1` allows). -/
def redisAllow (remote : Except Unit Int) (fallback : FixedWindowLimiter) (now : Int)
    (key : String) (limit : Int) (window : Int) : Bool × FixedWindowLimiter :=
  if limit ≤ 0 then (false, fallback)
  else
    match remote with
    | .error _ => fallback.Allow now key limit window
    | .ok result => (decide (result = 1), fallback)

/-- `RedisDuplicateDetector.SeenRecently` with the remote `SetNX`
outcome made explicit: `Except.ok ok` is the set-if-absent success flag
(`return !ok`), `Except.error` a transport error or timeout. -/
def redisSeenRecently (remote : Except Unit Bool) (fallback : DuplicateDetector)
    (now : Int) (key : String) (window : Int) : Bool × DuplicateDetector :=
  match remote with
  | .error _ => fallback.SeenRecently now key window
  | .ok ok => (!ok, fallback)

/-- Bits of one byte, most significant first (the order in which the Go
loop consumes a digest byte). -/
def byteBits (b : Nat) : List Bool :=
  [b.testBit 7, b.testBit 6, b.testBit 5, b.testBit 4,
   b.testBit 3, b.testBit 2, b.testBit 1, b.testBit 0]

/-- The bit sequence of a digest, MSB-first across the byte sequence. -/
def digestBits (d : List Nat) : List Bool :=
  (d.map byteBits).flatten

/-- Number of leading `false` (zero) bits of a bit sequence. -/
def leadingZeroCount : List Bool → Nat
  | [] => 0
  | b :: rest => if b then 0 else 1 + leadingZeroCount rest

/-- A record with its failure counter bumped (`record.FailCount++`). -/
def bumpFail (r : ChallengeRecord) : ChallengeRecord :=
  { r with failCount := r.failCount + 1 }

/-- The manager after a below-threshold `registerFailure`: the record is
stored back with its counter bumped. -/
def bumpRecord (mm : ChallengeManager) (challengeID : String) (r : ChallengeRecord) :
    ChallengeManager :=
  { mm with records := ainsert mm.records challengeID (bumpFail r) }

/-- Test harness: run `VerifySubmission` once per signature in `sigs`
(all other arguments fixed, all calls at the same instant), returning
the list of outcomes and the final manager state. -/
def verifyChain (h : HashPrims) (now : Int)
    (clientIP challengeID timestampRaw pn ph method path : String) (body : List Nat) :
    ChallengeManager → List String → List VerifyResult × ChallengeManager
  | m, [] => ([], m)
  | m, s :: rest =>
    let r := m.VerifySubmission h now clientIP challengeID timestampRaw s pn ph method path body
    let tail := verifyChain h now clientIP challengeID timestampRaw pn ph method path body
      r.2 rest
    (r.1 :: tail.1, tail.2)

/-! ### Association-list lemmas -/

theorem alookup_filter {α : Type} {l : List (String × α)} {k : String} {v : α}
    {p : String × α → Bool} (h1 : alookup l k = some v) (h2 : p (k, v) = true) :
    alookup (l.filter p) k = some v := by
  induction l with
  | nil => simp [alookup] at h1
  | cons x rest ih =>
    obtain ⟨kx, vx⟩ := x
    by_cases hk : kx = k
    · subst hk
      rw [alookup, if_pos rfl] at h1
      cases h1
      rw [List.filter_cons, if_pos h2, alookup, if_pos rfl]
    · rw [alookup, if_neg hk] at h1
      rw [List.filter_cons]
      split
      · rw [alookup, if_neg hk]
        exact ih h1
      · exact ih h1

theorem alookup_filter_none {α : Type} {l : List (String × α)} {k : String}
    {p : String × α → Bool} (h1 : alookup l k = none) :
    alookup (l.filter p) k = none := by
  induction l with
  | nil => simp [alookup]
  | cons x rest ih =>
    obtain ⟨kx, vx⟩ := x
    by_cases hk : kx = k
    · subst hk
      rw [alookup, if_pos rfl] at h1
      cases h1
    · rw [alookup, if_neg hk] at h1
      rw [List.filter_cons]
      split
      · rw [alookup, if_neg hk]
        exact ih h1
      · exact ih h1

theorem alookup_ainsert_self {α : Type} (l : List (String × α)) (k : String) (v : α) :
    alookup (ainsert l k v) k = some v := by
  induction l with
  | nil => simp [ainsert, alookup]
  | cons x rest ih =>
    obtain ⟨kx, vx⟩ := x
    by_cases hk : kx = k
    · subst hk
      rw [ainsert, if_pos rfl, alookup, if_pos rfl]
    · rw [ainsert, if_neg hk, alookup, if_neg hk]
      exact ih

theorem alookup_aerase_self {α : Type} (l : List (String × α)) (k : String) :
    alookup (aerase l k) k = none := by
  induction l with
  | nil => simp [aerase, alookup]
  | cons x rest ih =>
    obtain ⟨kx, vx⟩ := x
    rw [aerase, List.filter_cons]
    split
    · next hcond =>
      have hk : kx ≠ k := by
        intro he
        simp [he] at hcond
      rw [alookup, if_neg hk]
      exact ih
    · exact ih

theorem mem_ainsert {α : Type} {x : String × α} {l : List (String × α)}
    {k : String} {v : α} (h : x ∈ ainsert l k v) : x = (k, v) ∨ x ∈ l := by
  induction l with
  | nil => simpa [ainsert] using h
  | cons y rest ih =>
    obtain ⟨ky, vy⟩ := y
    rw [ainsert] at h
    split at h
    · rcases List.mem_cons.mp h with h | h
      · exact Or.inl h
      · exact Or.inr (List.mem_cons_of_mem _ h)
    · rcases List.mem_cons.mp h with h | h
      · exact Or.inr (h ▸ List.mem_cons_self _ _)
      · rcases ih h with h | h
        · exact Or.inl h
        · exact Or.inr (List.mem_cons_of_mem _ h)

theorem filter_eq_self_of_all {α : Type} {l : List α} {p : α → Bool}
    (h : ∀ x ∈ l, p x = true) : l.filter p = l :=
  List.filter_eq_self.mpr h

theorem all_ainsert {α : Type} {l : List (String × α)} {p : String × α → Bool}
    {k : String} {v : α} (hl : ∀ x ∈ l, p x = true) (hv : p (k, v) = true) :
    ∀ x ∈ ainsert l k v, p x = true := by
  intro x hx
  rcases mem_ainsert hx with h | h
  · exact h ▸ hv
  · exact hl x h

/-! ### Byte- and bit-level lemmas -/

theorem charUtf8_length_pos (c : Char) : 1 ≤ (charUtf8 c).length := by
  unfold charUtf8
  split_ifs <;> simp

theorem length_le_strBytes_length (s : String) : s.length ≤ (strBytes s).length := by
  show s.data.length ≤ (strBytes s).length
  unfold strBytes
  induction s.data with
  | nil => simp
  | cons c rest ih =>
    simp only [List.map_cons, List.flatten_cons, List.length_append, List.length_cons]
    have := charUtf8_length_pos c
    omega

theorem leadingZeroCount_append_of_lt {l : List Bool} (x : List Bool)
    (h : leadingZeroCount l < l.length) :
    leadingZeroCount (l ++ x) = leadingZeroCount l := by
  induction l with
  | nil => simp at h
  | cons b rest ih =>
    cases b with
    | true => simp [leadingZeroCount]
    | false =>
      simp only [List.cons_append, leadingZeroCount, if_neg Bool.false_ne_true,
        List.length_cons] at h ⊢
      have h2 : leadingZeroCount rest < rest.length := by omega
      exact congrArg (fun t => 1 + t) (ih h2)

theorem byteBits_zero : byteBits 0 = [false, false, false, false, false, false, false, false] := by
  decide

set_option maxRecDepth 4000 in
theorem leadingZeroCount_byte_lt (b : Nat) (hb : b < 256) (hnz : b ≠ 0) :
    leadingZeroCount (byteBits b) < 8 := by
  revert hnz
  revert hb
  revert b
  decide

theorem byteBits_length (b : Nat) : (byteBits b).length = 8 := by
  rfl

set_option maxRecDepth 8000 in
theorem mask_iff (k : Nat) (hk1 : 1 ≤ k) (hk7 : k < 8) (b : Nat) (hb : b < 256) :
    ((b &&& ((255 <<< (8 - k)) % 256)) = 0) ↔ (k ≤ leadingZeroCount (byteBits b)) := by
  revert hb; revert b; revert hk7; revert hk1; revert k
  decide

/-- The Go loop `hasLeadingZeroBits` accepts exactly when the digest's
bit sequence, MSB-first across the byte sequence, starts with at least
`bits` zero bits. -/
theorem hasLeadingZeroBits_iff : ∀ (d : List Nat) (bits : Int), (∀ b ∈ d, b < 256) →
    (hasLeadingZeroBits d bits = true ↔ bits ≤ (leadingZeroCount (digestBits d) : Int)) := by
  intro d
  induction d with
  | nil =>
    intro bits _
    simp [hasLeadingZeroBits, digestBits, leadingZeroCount]
  | cons b rest ih =>
    intro bits hd
    have hb : b < 256 := hd b (List.mem_cons_self _ _)
    have hrest : ∀ x ∈ rest, x < 256 := fun x hx => hd x (List.mem_cons_of_mem _ hx)
    have hdig : digestBits (b :: rest) = byteBits b ++ digestBits rest := by
      simp [digestBits]
    have hcnt0 : leadingZeroCount (byteBits 0 ++ digestBits rest) =
        8 + leadingZeroCount (digestBits rest) := by
      rw [byteBits_zero]
      simp [leadingZeroCount]
      omega
    rw [hasLeadingZeroBits, hdig]
    by_cases h0 : bits ≤ 0
    · rw [if_pos h0]
      constructor
      · intro _
        have := Int.natCast_nonneg (leadingZeroCount (byteBits b ++ digestBits rest))
        omega
      · intro _
        rfl
    · rw [if_neg h0]
      by_cases h8 : 8 ≤ bits
      · rw [if_pos h8]
        by_cases hz : b = 0
        · subst hz
          rw [if_neg (by simp), hcnt0, ih (bits - 8) hrest]
          constructor <;> intro h <;> omega
        · rw [if_pos hz]
          have hlt := leadingZeroCount_byte_lt b hb hz
          have happ := leadingZeroCount_append_of_lt (l := byteBits b)
            (digestBits rest) (by rw [byteBits_length]; exact hlt)
          rw [happ]
          constructor
          · intro h
            cases h
          · intro h
            omega
      · rw [if_neg h8]
        have hk1 : 1 ≤ bits.toNat := by omega
        have hk7 : bits.toNat < 8 := by omega
        have hkk : (8 - bits).toNat = 8 - bits.toNat := by omega
        rw [hkk, decide_eq_true_iff, mask_iff bits.toNat hk1 hk7 b hb]
        by_cases hz : b = 0
        · subst hz
          rw [hcnt0]
          have h8z : leadingZeroCount (byteBits 0) = 8 := by decide
          rw [h8z]
          constructor <;> intro <;> omega
        · have hlt := leadingZeroCount_byte_lt b hb hz
          have happ := leadingZeroCount_append_of_lt (l := byteBits b)
            (digestBits rest) (by rw [byteBits_length]; exact hlt)
          rw [happ]
          constructor <;> intro <;> omega

/-! ### Behaviour of the challenge-manager checks -/

theorem verifyChecks_blocked (h : HashPrims) (mc : ChallengeManager) (now : Int)
    (clientIP challengeID timestampRaw signatureRaw powNonceRaw powHashRaw method path : String)
    (body : List Nat)
    (hb : isBlockedAt mc.blockedClientIP clientIP now = true) :
    verifyChecks h mc now clientIP challengeID timestampRaw signatureRaw powNonceRaw
      powHashRaw method path body = (.clientBlocked, mc) := by
  unfold verifyChecks
  rw [hb]
  rfl

/-- C5: an active block entry (now strictly before its expiry) makes
`VerifySubmission` return `ClientBlocked` for every combination of the
remaining arguments; the resulting state is just the cleanup of the old
one, so every surviving challenge record is an unchanged member of the
original map (used flags and failure counters untouched). -/
theorem blocked_rejects_all (h : HashPrims) (m : ChallengeManager) (now : Int)
    (clientIP : String) (blockedUntil : Int)
    (hlook : alookup m.blockedClientIP clientIP = some blockedUntil)
    (hactive : now < blockedUntil) :
    ∀ challengeID timestampRaw signatureRaw powNonceRaw powHashRaw method path body,
      m.VerifySubmission h now clientIP challengeID timestampRaw signatureRaw powNonceRaw
          powHashRaw method path body = (.clientBlocked, cleanup now m) ∧
      ∀ e ∈ (cleanup now m).records, e ∈ m.records := by
  intro challengeID timestampRaw signatureRaw powNonceRaw powHashRaw method path body
  constructor
  · apply verifyChecks_blocked
    have hlook2 : alookup (cleanup now m).blockedClientIP clientIP = some blockedUntil := by
      apply alookup_filter hlook
      simp only [Bool.not_eq_true', decide_eq_false_iff_not, gt_iff_lt, not_lt]
      omega
    unfold isBlockedAt
    rw [hlook2]
    simp only [decide_eq_true_eq]
    omega
  · intro e he
    exact List.mem_of_mem_filter he

theorem blocked_rejects_all_witness :
    ChallengeManager.VerifySubmission ⟨0, 0, 5, 0, [], [("c", 100)]⟩
        ⟨fun _ => [0], fun _ _ => [0]⟩ 50 "c" "id" "0" "s" "" "" "POST" "/p" []
      = (.clientBlocked, cleanup 50 ⟨0, 0, 5, 0, [], [("c", 100)]⟩) :=
  (blocked_rejects_all ⟨fun _ => [0], fun _ _ => [0]⟩ ⟨0, 0, 5, 0, [], [("c", 100)]⟩
    50 "c" 100 (by decide) (by decide) "id" "0" "s" "" "" "POST" "/p" []).1

/-- C8: when the remote-store call fails, the remote-backed limiter and
duplicate detector return exactly the result of their embedded local
fallback for the same arguments; the return type carries no error, so
no infrastructure failure reaches the caller. -/
theorem remote_error_falls_back :
    ∀ (fb : FixedWindowLimiter) (db : DuplicateDetector) (now : Int) (key : String)
      (limit window : Int),
      redisAllow (Except.error ()) fb now key limit window
          = fb.Allow now key limit window ∧
      redisSeenRecently (Except.error ()) db now key window
          = db.SeenRecently now key window := by
  intro fb db now key limit window
  constructor
  · unfold redisAllow FixedWindowLimiter.Allow
    split
    · rfl
    · rfl
  · rfl

/-- C7: first observation of a key returns `false` and records expiry
`now + window`; any observation strictly before the recorded expiry
returns `true` and leaves the detector completely unchanged; an
observation at or after the expiry returns `false` again and records
the fresh expiry `now + window`. -/
theorem seenRecently_spec (d : DuplicateDetector) (now : Int) (key : String) (window : Int)
    (hw : 0 ≤ window) :
    (alookup d.records key = none →
      (d.SeenRecently now key window).1 = false ∧
      alookup (d.SeenRecently now key window).2.records key = some (now + window)) ∧
    (∀ e, alookup d.records key = some e → now < e →
      d.SeenRecently now key window = (true, d)) ∧
    (∀ e, alookup d.records key = some e → e ≤ now →
      (d.SeenRecently now key window).1 = false ∧
      alookup (d.SeenRecently now key window).2.records key = some (now + window)) := by
  refine ⟨?_, ?_, ?_⟩
  · intro hnone
    unfold DuplicateDetector.SeenRecently
    rw [hnone]
    dsimp only
    refine ⟨rfl, ?_⟩
    apply alookup_filter (alookup_ainsert_self _ _ _)
    simp only [Bool.not_eq_true', decide_eq_false_iff_not, gt_iff_lt, not_lt]
    omega
  · intro e he hlt
    unfold DuplicateDetector.SeenRecently
    rw [he]
    dsimp only
    rw [if_pos hlt]
  · intro e he hle
    unfold DuplicateDetector.SeenRecently
    rw [he]
    dsimp only
    rw [if_neg (by omega)]
    refine ⟨rfl, ?_⟩
    apply alookup_filter (alookup_ainsert_self _ _ _)
    simp only [Bool.not_eq_true', decide_eq_false_iff_not, gt_iff_lt, not_lt]
    omega

theorem seenRecently_spec_witness :
    (DuplicateDetector.SeenRecently ⟨[]⟩ 0 "a" 10).1 = false ∧
    alookup (DuplicateDetector.SeenRecently ⟨[]⟩ 0 "a" 10).2.records "a" = some 10 :=
  (seenRecently_spec ⟨[]⟩ 0 "a" 10 (by decide)).1 (by decide)

/-- C9 (amended): a `SeenRecently` call that returns `false` sweeps the
map, leaving no entry whose expiry lies strictly before `now`; a call
that returns `true` performs no cleanup at all (see the
counterexample). -/
theorem seenRecently_sweeps_on_false (d : DuplicateDetector) (now : Int) (key : String)
    (window : Int) (hres : (d.SeenRecently now key window).1 = false) :
    (d.SeenRecently now key window).2.records.all (fun p => !decide (p.2 < now)) = true := by
  unfold DuplicateDetector.SeenRecently at hres ⊢
  cases hlk : alookup d.records key with
  | none =>
    dsimp only at hres ⊢
    apply List.all_eq_true.mpr
    intro p hp
    have := List.of_mem_filter hp
    simpa using this
  | some e =>
    rw [hlk] at hres
    dsimp only at hres ⊢
    by_cases hlt : now < e
    · rw [if_pos hlt] at hres
      cases hres
    · rw [if_neg hlt]
      apply List.all_eq_true.mpr
      intro p hp
      have := List.of_mem_filter hp
      simpa using this

theorem seenRecently_sweeps_on_false_witness :
    (DuplicateDetector.SeenRecently ⟨[("a", 0)]⟩ 5 "b" 10).1 = false ∧
    (DuplicateDetector.SeenRecently ⟨[("a", 0)]⟩ 5 "b" 10).2.records.all
      (fun p => !decide (p.2 < 5)) = true :=
  ⟨by decide, seenRecently_sweeps_on_false ⟨[("a", 0)]⟩ 5 "b" 10 (by decide)⟩

/-- C9 counterexample: a call that reports "seen" (`true`) does not
sweep: with entry `("a", 0)` long expired at `now = 5`, observing the
still-live key `"b"` returns `true` and leaves the expired `("a", 0)`
in the map, contradicting "after every call, regardless of its boolean
result, no expired entry remains". -/
theorem seenRecently_no_sweep_on_true_cex :
    (DuplicateDetector.SeenRecently ⟨[("a", 0), ("b", 10)]⟩ 5 "b" 10).1 = true ∧
    ("a", (0 : Int)) ∈ (DuplicateDetector.SeenRecently ⟨[("a", 0), ("b", 10)]⟩ 5 "b" 10).2.records ∧
    (0 : Int) < 5 := by
  decide

/-- C3: `Allow` denies whenever `limit ≤ 0`; on first observation of a
key, or when the elapsed time since the stored window start is at least
`window`, it resets the record to `(now, 1)` and allows; otherwise it
denies (state unchanged) when `count ≥ limit` and else increments the
count and allows.  With limit 6 this yields: calls 1-6 allowed, call 7
denied, and the first call a full window later allowed with the counter
reset to 1. -/
theorem allow_spec (l : FixedWindowLimiter) (now : Int) (key : String)
    (limit window : Int) (hw : 0 < window) :
    (limit ≤ 0 → l.Allow now key limit window = (false, l)) ∧
    (0 < limit → alookup l.records key = none →
      (l.Allow now key limit window).1 = true ∧
      alookup (l.Allow now key limit window).2.records key = some (now, 1)) ∧
    (∀ ws c, 0 < limit → alookup l.records key = some (ws, c) → window ≤ now - ws →
      (l.Allow now key limit window).1 = true ∧
      alookup (l.Allow now key limit window).2.records key = some (now, 1)) ∧
    (∀ ws c, 0 < limit → alookup l.records key = some (ws, c) → now - ws < window →
      limit ≤ c → l.Allow now key limit window = (false, l)) ∧
    (∀ ws c, 0 < limit → alookup l.records key = some (ws, c) → now - ws < window →
      c < limit →
      (l.Allow now key limit window).1 = true ∧
      alookup (l.Allow now key limit window).2.records key = some (ws, c + 1)) := by
  refine ⟨?_, ?_, ?_, ?_, ?_⟩
  · intro hle
    unfold FixedWindowLimiter.Allow
    rw [if_pos hle]
  · intro hpos hnone
    unfold FixedWindowLimiter.Allow
    rw [if_neg (by omega), hnone]
    dsimp only
    refine ⟨rfl, ?_⟩
    unfold cleanupExpired
    apply alookup_filter (alookup_ainsert_self _ _ _)
    simp only [Bool.not_eq_true', decide_eq_false_iff_not, ge_iff_le, not_le]
    omega
  · intro ws c hpos hsome hge
    unfold FixedWindowLimiter.Allow
    rw [if_neg (by omega), hsome]
    dsimp only
    rw [if_pos (by omega)]
    refine ⟨rfl, ?_⟩
    unfold cleanupExpired
    apply alookup_filter (alookup_ainsert_self _ _ _)
    simp only [Bool.not_eq_true', decide_eq_false_iff_not, ge_iff_le, not_le]
    omega
  · intro ws c hpos hsome hlt hcl
    unfold FixedWindowLimiter.Allow
    rw [if_neg (by omega), hsome]
    dsimp only
    rw [if_neg (by omega), if_pos (by omega)]
  · intro ws c hpos hsome hlt hcl
    unfold FixedWindowLimiter.Allow
    rw [if_neg (by omega), hsome]
    dsimp only
    rw [if_neg (by omega), if_neg (by omega)]
    exact ⟨rfl, alookup_ainsert_self _ _ _⟩

theorem allow_spec_witness :
    (FixedWindowLimiter.Allow ⟨[("k", (0, 6))]⟩ 1 "k" 6 900000000000
        = (false, ⟨[("k", (0, 6))]⟩)) ∧
    (FixedWindowLimiter.Allow ⟨[("k", (0, 6))]⟩ 900000000000 "k" 6 900000000000).1 = true ∧
    alookup (FixedWindowLimiter.Allow ⟨[("k", (0, 6))]⟩ 900000000000 "k" 6
        900000000000).2.records "k" = some (900000000000, 1) :=
  ⟨(allow_spec ⟨[("k", (0, 6))]⟩ 1 "k" 6 900000000000 (by decide)).2.2.2.1 0 6
      (by decide) (by decide) (by decide) (by decide),
   (allow_spec ⟨[("k", (0, 6))]⟩ 900000000000 "k" 6 900000000000 (by decide)).2.2.1 0 6
      (by decide) (by decide) (by decide)⟩

theorem verifyChecks_reduce (h : HashPrims) (mc : ChallengeManager) (now : Int)
    (clientIP challengeID timestampRaw signatureRaw powNonceRaw powHashRaw method path : String)
    (body : List Nat) (record : ChallengeRecord) (ts : Int)
    (hnb : isBlockedAt mc.blockedClientIP clientIP now = false)
    (hrec : alookup mc.records challengeID = some record)
    (hused : record.used = false)
    (hexp : ¬ record.bundle.expiresAt < now)
    (hip : record.issuedIP = clientIP)
    (hts : parseInt64 timestampRaw = some ts)
    (habs : |now - ts * nsPerSecond| ≤ mc.timestampSkew) :
    verifyChecks h mc now clientIP challengeID timestampRaw signatureRaw powNonceRaw
        powHashRaw method path body =
      powStage h mc now clientIP challengeID record timestampRaw signatureRaw
        powNonceRaw powHashRaw method path (hexEncode (h.sha256 body)) := by
  unfold verifyChecks
  rw [hnb]
  simp only [Bool.false_eq_true, if_false]
  rw [hrec]
  dsimp only
  rw [hused]
  simp only [Bool.false_eq_true, if_false]
  rw [if_neg hexp, if_neg (by simp [hip]), hts]
  dsimp only
  rcases abs_le.mp habs with ⟨h1, h2⟩
  rw [if_neg (by unfold subDuration wrap64 minDuration maxDuration; split_ifs <;> omega)]

theorem verifyChecks_tsparse_fail (h : HashPrims) (mc : ChallengeManager) (now : Int)
    (clientIP challengeID timestampRaw signatureRaw powNonceRaw powHashRaw method path : String)
    (body : List Nat) (record : ChallengeRecord)
    (hnb : isBlockedAt mc.blockedClientIP clientIP now = false)
    (hrec : alookup mc.records challengeID = some record)
    (hused : record.used = false)
    (hexp : ¬ record.bundle.expiresAt < now)
    (hip : record.issuedIP = clientIP)
    (hts : parseInt64 timestampRaw = none) :
    verifyChecks h mc now clientIP challengeID timestampRaw signatureRaw powNonceRaw
        powHashRaw method path body = (.timestampInvalid, mc) := by
  unfold verifyChecks
  rw [hnb]
  simp only [Bool.false_eq_true, if_false]
  rw [hrec]
  dsimp only
  rw [hused]
  simp only [Bool.false_eq_true, if_false]
  rw [if_neg hexp, if_neg (by simp [hip]), hts]

theorem signatureStage_fail (h : HashPrims) (mc : ChallengeManager) (now : Int)
    (clientIP challengeID : String) (record : ChallengeRecord)
    (timestampRaw signatureRaw method path bodyHashHex : String)
    (hsig : toLowerStr signatureRaw ≠
      toLowerStr (expectedSig h record timestampRaw method path bodyHashHex)) :
    signatureStage h mc now clientIP challengeID record timestampRaw signatureRaw
        method path bodyHashHex
      = (.signatureInvalid, registerFailure mc now clientIP challengeID record) := by
  unfold signatureStage
  rw [if_pos (Ne.symm hsig)]

theorem signatureStage_ok (h : HashPrims) (mc : ChallengeManager) (now : Int)
    (clientIP challengeID : String) (record : ChallengeRecord)
    (timestampRaw signatureRaw method path bodyHashHex : String)
    (hsig : toLowerStr signatureRaw =
      toLowerStr (expectedSig h record timestampRaw method path bodyHashHex)) :
    signatureStage h mc now clientIP challengeID record timestampRaw signatureRaw
        method path bodyHashHex
      = (.ok, { mc with records := aerase mc.records challengeID }) := by
  unfold signatureStage
  rw [if_neg (by rw [hsig]; exact fun hn => hn rfl)]

theorem powStage_nonpow (h : HashPrims) (mc : ChallengeManager) (now : Int)
    (clientIP challengeID : String) (record : ChallengeRecord)
    (timestampRaw signatureRaw powNonceRaw powHashRaw method path bodyHashHex : String)
    (hpb : record.bundle.powBits ≤ 0) :
    powStage h mc now clientIP challengeID record timestampRaw signatureRaw powNonceRaw
        powHashRaw method path bodyHashHex
      = signatureStage h mc now clientIP challengeID record timestampRaw signatureRaw
          method path bodyHashHex := by
  unfold powStage
  rw [if_neg (by omega)]

theorem powStage_long_nonce (h : HashPrims) (mc : ChallengeManager) (now : Int)
    (clientIP challengeID : String) (record : ChallengeRecord)
    (timestampRaw signatureRaw powNonceRaw powHashRaw method path bodyHashHex : String)
    (hpb : 0 < record.bundle.powBits)
    (hne : (trimGo powNonceRaw) ≠ "")
    (hlen : 128 < (strBytes (trimGo powNonceRaw)).length) :
    powStage h mc now clientIP challengeID record timestampRaw signatureRaw powNonceRaw
        powHashRaw method path bodyHashHex
      = (.powInvalid, registerFailure mc now clientIP challengeID record) := by
  unfold powStage
  rw [if_pos (by omega), if_neg hne, if_pos (by omega)]

theorem powStage_digest_fail (h : HashPrims) (mc : ChallengeManager) (now : Int)
    (clientIP challengeID : String) (record : ChallengeRecord)
    (timestampRaw signatureRaw powNonceRaw powHashRaw method path bodyHashHex : String)
    (hpb : 0 < record.bundle.powBits)
    (hne : (trimGo powNonceRaw) ≠ "")
    (hlen : (strBytes (trimGo powNonceRaw)).length ≤ 128)
    (hdg : hasLeadingZeroBits
        (h.sha256 (strBytes (buildPoWMessage method path timestampRaw bodyHashHex
          challengeID record.bundle.powSalt (trimGo powNonceRaw))))
        record.bundle.powBits = false) :
    powStage h mc now clientIP challengeID record timestampRaw signatureRaw powNonceRaw
        powHashRaw method path bodyHashHex
      = (.powInvalid, registerFailure mc now clientIP challengeID record) := by
  unfold powStage
  rw [if_pos (by omega), if_neg hne, if_neg (by omega)]
  dsimp only
  rw [hdg]
  rfl

theorem powStage_pass (h : HashPrims) (mc : ChallengeManager) (now : Int)
    (clientIP challengeID : String) (record : ChallengeRecord)
    (timestampRaw signatureRaw powNonceRaw powHashRaw method path bodyHashHex : String)
    (hpb : 0 < record.bundle.powBits)
    (hne : (trimGo powNonceRaw) ≠ "")
    (hlen : (strBytes (trimGo powNonceRaw)).length ≤ 128)
    (hdg : hasLeadingZeroBits
        (h.sha256 (strBytes (buildPoWMessage method path timestampRaw bodyHashHex
          challengeID record.bundle.powSalt (trimGo powNonceRaw))))
        record.bundle.powBits = true)
    (hph : (trimGo powHashRaw) = "") :
    powStage h mc now clientIP challengeID record timestampRaw signatureRaw powNonceRaw
        powHashRaw method path bodyHashHex
      = signatureStage h mc now clientIP challengeID record timestampRaw signatureRaw
          method path bodyHashHex := by
  unfold powStage
  rw [if_pos (by omega), if_neg hne, if_neg (by omega)]
  dsimp only
  rw [hdg]
  simp only [Bool.not_true, Bool.false_eq_true, if_false]
  rw [if_neg (by rw [hph]; intro hcon; exact hcon.1 rfl)]

theorem powStage_result_cases (h : HashPrims) (mc : ChallengeManager) (now : Int)
    (clientIP challengeID : String) (record : ChallengeRecord)
    (timestampRaw signatureRaw powNonceRaw powHashRaw method path bodyHashHex : String) :
    (powStage h mc now clientIP challengeID record timestampRaw signatureRaw powNonceRaw
        powHashRaw method path bodyHashHex).1 = .powMissing ∨
    (powStage h mc now clientIP challengeID record timestampRaw signatureRaw powNonceRaw
        powHashRaw method path bodyHashHex).1 = .powInvalid ∨
    (powStage h mc now clientIP challengeID record timestampRaw signatureRaw powNonceRaw
        powHashRaw method path bodyHashHex).1 = .signatureInvalid ∨
    (powStage h mc now clientIP challengeID record timestampRaw signatureRaw powNonceRaw
        powHashRaw method path bodyHashHex).1 = .ok := by
  unfold powStage signatureStage
  dsimp only
  split_ifs <;> simp

theorem registerFailure_below (m : ChallengeManager) (now : Int)
    (clientIP challengeID : String) (record : ChallengeRecord)
    (hlt : record.failCount + 1 < m.failThreshold) :
    registerFailure m now clientIP challengeID record
      = { m with records :=
            ainsert m.records challengeID { record with failCount := record.failCount + 1 } } := by
  unfold registerFailure
  rw [if_neg (by simp only []; omega)]

theorem registerFailure_reach (m : ChallengeManager) (now : Int)
    (clientIP challengeID : String) (record : ChallengeRecord)
    (hge : m.failThreshold ≤ record.failCount + 1) :
    registerFailure m now clientIP challengeID record
      = { m with
          blockedClientIP := ainsert m.blockedClientIP clientIP (now + m.blockDuration),
          records := aerase m.records challengeID } := by
  unfold registerFailure
  rw [if_pos (by simp only []; omega)]

theorem registerFailure_below_bump (m : ChallengeManager) (now : Int)
    (clientIP challengeID : String) (record : ChallengeRecord)
    (hlt : record.failCount + 1 < m.failThreshold) :
    registerFailure m now clientIP challengeID record = bumpRecord m challengeID record :=
  registerFailure_below m now clientIP challengeID record hlt

/-- C4 (code bug): a timestamp far enough in the future parses fine,
but `now.Sub(timestamp)` saturates at `minDuration` (the difference
exceeds 2^63 ns, about 292 years), and the `delta = -delta` int64
negation wraps `minDuration` to itself, so the still-negative delta
never exceeds the skew: the submission passes the timestamp check and,
with a correct signature, even succeeds — instead of failing with
`TimestampInvalid` as the spec's absolute-difference rule requires.
Concretely: skew 90 s, `now` at epoch second 1700000000, a live
matching record, and timestamp `"100000000000"` (epoch seconds, more
than 3000 years away). -/
theorem timestamp_far_future_accepted :
    (ChallengeManager.VerifySubmission
        ⟨120 * nsPerSecond, 90 * nsPerSecond, 5, 600 * nsPerSecond,
         [("cid", ⟨⟨"cid", "sec", "non", 0, "",
           1700000000 * nsPerSecond + 120 * nsPerSecond⟩, "1.2.3.4", false, 0⟩)], []⟩
        ⟨fun _ => [0], fun _ _ => [171]⟩ (1700000000 * nsPerSecond) "1.2.3.4" "cid"
        "100000000000" "ab" "" "" "POST" "/p" []).1 = .ok ∧
    90 * nsPerSecond < |1700000000 * nsPerSecond - 100000000000 * nsPerSecond| := by
  decide

/-- C10: with PoW enabled on the bundle, a trimmed nonce longer than 128
characters makes `VerifySubmission` return `PoWInvalid` and increments
the record's failure counter — for every hash function, i.e. even if the
nonce's digest would satisfy the difficulty. -/
theorem long_nonce_rejected (h : HashPrims) (m : ChallengeManager) (now : Int)
    (clientIP challengeID timestampRaw signatureRaw powNonceRaw powHashRaw method path : String)
    (body : List Nat) (record : ChallengeRecord) (ts : Int)
    (hnb : isBlockedAt (cleanup now m).blockedClientIP clientIP now = false)
    (hrec : alookup (cleanup now m).records challengeID = some record)
    (hused : record.used = false)
    (hexp : ¬ record.bundle.expiresAt < now)
    (hip : record.issuedIP = clientIP)
    (hts : parseInt64 timestampRaw = some ts)
    (habs : |now - ts * nsPerSecond| ≤ m.timestampSkew)
    (hpb : 0 < record.bundle.powBits)
    (hne : (trimGo powNonceRaw) ≠ "")
    (hlen : 128 < (trimGo powNonceRaw).length) :
    m.VerifySubmission h now clientIP challengeID timestampRaw signatureRaw powNonceRaw
        powHashRaw method path body
      = (.powInvalid, registerFailure (cleanup now m) now clientIP challengeID record) ∧
    (record.failCount + 1 < m.failThreshold →
      alookup (m.VerifySubmission h now clientIP challengeID timestampRaw signatureRaw
          powNonceRaw powHashRaw method path body).2.records challengeID
        = some { record with failCount := record.failCount + 1 }) := by
  have hbytes : 128 < (strBytes (trimGo powNonceRaw)).length :=
    lt_of_lt_of_le hlen (length_le_strBytes_length _)
  have hmain : m.VerifySubmission h now clientIP challengeID timestampRaw signatureRaw
      powNonceRaw powHashRaw method path body
      = (.powInvalid, registerFailure (cleanup now m) now clientIP challengeID record) := by
    have hred := verifyChecks_reduce h (cleanup now m) now clientIP challengeID timestampRaw
      signatureRaw powNonceRaw powHashRaw method path body record ts hnb hrec hused hexp hip
      hts habs
    unfold ChallengeManager.VerifySubmission
    rw [hred]
    exact powStage_long_nonce h (cleanup now m) now clientIP challengeID record timestampRaw
      signatureRaw powNonceRaw powHashRaw method path (hexEncode (h.sha256 body)) hpb hne hbytes
  refine ⟨hmain, ?_⟩
  intro hthr
  rw [hmain]
  rw [registerFailure_below (cleanup now m) now clientIP challengeID record hthr]
  exact alookup_ainsert_self _ _ _

set_option maxRecDepth 8000 in
theorem long_nonce_rejected_witness :
    ChallengeManager.VerifySubmission
        ⟨120 * nsPerSecond, 90 * nsPerSecond, 5, 600 * nsPerSecond,
         [("cid", ⟨⟨"cid", "sec", "non", 8, "salt", 120 * nsPerSecond⟩, "1.2.3.4", false, 0⟩)],
         []⟩
        ⟨fun _ => [0], fun _ _ => [171]⟩ 0 "1.2.3.4" "cid" "0" "ab"
        (String.mk (List.replicate 129 'a')) "" "POST" "/p" []
      = (.powInvalid,
         registerFailure
           (cleanup 0
             ⟨120 * nsPerSecond, 90 * nsPerSecond, 5, 600 * nsPerSecond,
              [("cid", ⟨⟨"cid", "sec", "non", 8, "salt", 120 * nsPerSecond⟩, "1.2.3.4", false, 0⟩)],
              []⟩)
           0 "1.2.3.4" "cid"
           ⟨⟨"cid", "sec", "non", 8, "salt", 120 * nsPerSecond⟩, "1.2.3.4", false, 0⟩) ∧
    alookup
        (ChallengeManager.VerifySubmission
          ⟨120 * nsPerSecond, 90 * nsPerSecond, 5, 600 * nsPerSecond,
           [("cid", ⟨⟨"cid", "sec", "non", 8, "salt", 120 * nsPerSecond⟩, "1.2.3.4", false, 0⟩)],
           []⟩
          ⟨fun _ => [0], fun _ _ => [171]⟩ 0 "1.2.3.4" "cid" "0" "ab"
          (String.mk (List.replicate 129 'a')) "" "POST" "/p" []).2.records "cid"
      = some ⟨⟨"cid", "sec", "non", 8, "salt", 120 * nsPerSecond⟩, "1.2.3.4", false, 1⟩ :=
  ⟨(long_nonce_rejected ⟨fun _ => [0], fun _ _ => [171]⟩
      ⟨120 * nsPerSecond, 90 * nsPerSecond, 5, 600 * nsPerSecond,
       [("cid", ⟨⟨"cid", "sec", "non", 8, "salt", 120 * nsPerSecond⟩, "1.2.3.4", false, 0⟩)], []⟩
      0 "1.2.3.4" "cid" "0" "ab" (String.mk (List.replicate 129 'a')) "" "POST" "/p" []
      ⟨⟨"cid", "sec", "non", 8, "salt", 120 * nsPerSecond⟩, "1.2.3.4", false, 0⟩ 0
      (by decide) (by decide) (by decide) (by decide) (by decide) (by decide) (by decide)
      (by decide) (by decide) (by decide)).1,
   (long_nonce_rejected ⟨fun _ => [0], fun _ _ => [171]⟩
      ⟨120 * nsPerSecond, 90 * nsPerSecond, 5, 600 * nsPerSecond,
       [("cid", ⟨⟨"cid", "sec", "non", 8, "salt", 120 * nsPerSecond⟩, "1.2.3.4", false, 0⟩)], []⟩
      0 "1.2.3.4" "cid" "0" "ab" (String.mk (List.replicate 129 'a')) "" "POST" "/p" []
      ⟨⟨"cid", "sec", "non", 8, "salt", 120 * nsPerSecond⟩, "1.2.3.4", false, 0⟩ 0
      (by decide) (by decide) (by decide) (by decide) (by decide) (by decide) (by decide)
      (by decide) (by decide) (by decide)).2 (by decide)⟩

/-- C1 (amended): for an issued challenge the first `VerifySubmission`
with a correct signature and fresh timestamp succeeds, and the success
path deletes the record, so every subsequent call with the same
challenge identifier returns `ChallengeMissing` — not `ChallengeUsed`:
the `used` check is unreachable because no used record stays in the
map. -/
theorem single_use (h : HashPrims) (m : ChallengeManager) (now : Int)
    (clientIP challengeID timestampRaw signatureRaw powNonceRaw powHashRaw method path : String)
    (body : List Nat) (record : ChallengeRecord) (ts : Int)
    (hnbl : alookup (cleanup now m).blockedClientIP clientIP = none)
    (hrec : alookup (cleanup now m).records challengeID = some record)
    (hused : record.used = false)
    (hexp : ¬ record.bundle.expiresAt < now)
    (hip : record.issuedIP = clientIP)
    (hts : parseInt64 timestampRaw = some ts)
    (habs : |now - ts * nsPerSecond| ≤ m.timestampSkew)
    (hpow : record.bundle.powBits ≤ 0 ∨
      (trimGo powNonceRaw ≠ "" ∧ (strBytes (trimGo powNonceRaw)).length ≤ 128 ∧
       hasLeadingZeroBits
         (h.sha256 (strBytes (buildPoWMessage method path timestampRaw
           (hexEncode (h.sha256 body)) challengeID record.bundle.powSalt
           (trimGo powNonceRaw))))
         record.bundle.powBits = true ∧
       trimGo powHashRaw = ""))
    (hsig : toLowerStr signatureRaw =
      toLowerStr (expectedSig h record timestampRaw method path (hexEncode (h.sha256 body)))) :
    m.VerifySubmission h now clientIP challengeID timestampRaw signatureRaw powNonceRaw
        powHashRaw method path body
      = (.ok, { cleanup now m with records := aerase (cleanup now m).records challengeID }) ∧
    ∀ now2 ts2 sig2 pn2 ph2 method2 path2 body2, now ≤ now2 →
      ((m.VerifySubmission h now clientIP challengeID timestampRaw signatureRaw powNonceRaw
          powHashRaw method path body).2.VerifySubmission h now2 clientIP challengeID ts2
          sig2 pn2 ph2 method2 path2 body2).1 = .challengeMissing := by
  have hnb : isBlockedAt (cleanup now m).blockedClientIP clientIP now = false := by
    unfold isBlockedAt
    rw [hnbl]
  have hred := verifyChecks_reduce h (cleanup now m) now clientIP challengeID timestampRaw
    signatureRaw powNonceRaw powHashRaw method path body record ts hnb hrec hused hexp hip
    hts habs
  have hmain : m.VerifySubmission h now clientIP challengeID timestampRaw signatureRaw
      powNonceRaw powHashRaw method path body
      = (.ok, { cleanup now m with records := aerase (cleanup now m).records challengeID }) := by
    unfold ChallengeManager.VerifySubmission
    rw [hred]
    by_cases hpb : record.bundle.powBits ≤ 0
    · rw [powStage_nonpow h (cleanup now m) now clientIP challengeID record timestampRaw
        signatureRaw powNonceRaw powHashRaw method path (hexEncode (h.sha256 body)) hpb]
      exact signatureStage_ok h (cleanup now m) now clientIP challengeID record timestampRaw
        signatureRaw method path (hexEncode (h.sha256 body)) hsig
    · rcases hpow with hc | ⟨hne, hlen, hdg, hph⟩
      · exact absurd hc hpb
      · rw [powStage_pass h (cleanup now m) now clientIP challengeID record timestampRaw
          signatureRaw powNonceRaw powHashRaw method path (hexEncode (h.sha256 body))
          (by omega) hne hlen hdg hph]
        exact signatureStage_ok h (cleanup now m) now clientIP challengeID record timestampRaw
          signatureRaw method path (hexEncode (h.sha256 body)) hsig
  refine ⟨hmain, ?_⟩
  intro now2 ts2 sig2 pn2 ph2 method2 path2 body2 hle
  rw [hmain]
  unfold ChallengeManager.VerifySubmission
  have h9 : alookup
      (cleanup now2 { cleanup now m with
        records := aerase (cleanup now m).records challengeID }).blockedClientIP
      clientIP = none := alookup_filter_none hnbl
  have hnb2 : isBlockedAt
      (cleanup now2 { cleanup now m with
        records := aerase (cleanup now m).records challengeID }).blockedClientIP
      clientIP now2 = false := by
    unfold isBlockedAt
    rw [h9]
  have hrec2 : alookup
      (cleanup now2 { cleanup now m with
        records := aerase (cleanup now m).records challengeID }).records
      challengeID = none :=
    alookup_filter_none (alookup_aerase_self _ _)
  unfold verifyChecks
  rw [hnb2]
  simp only [Bool.false_eq_true, if_false]
  rw [hrec2]

/-- C1 counterexample: a concrete issued challenge, verified
successfully once; the second call with the same challenge identifier
returns `ChallengeMissing`, not `ChallengeUsed` as the claim states,
because the success path deleted the record. -/
theorem single_use_cex :
    (ChallengeManager.VerifySubmission
        ⟨120 * nsPerSecond, 90 * nsPerSecond, 5, 600 * nsPerSecond,
         [("cid", ⟨⟨"cid", "sec", "non", 0, "", 120 * nsPerSecond⟩, "1.2.3.4", false, 0⟩)], []⟩
        ⟨fun _ => [0], fun _ _ => [171]⟩ 0 "1.2.3.4" "cid" "0" "ab" "" "" "POST" "/p" []).1
      = .ok ∧
    ((ChallengeManager.VerifySubmission
        ⟨120 * nsPerSecond, 90 * nsPerSecond, 5, 600 * nsPerSecond,
         [("cid", ⟨⟨"cid", "sec", "non", 0, "", 120 * nsPerSecond⟩, "1.2.3.4", false, 0⟩)], []⟩
        ⟨fun _ => [0], fun _ _ => [171]⟩ 0 "1.2.3.4" "cid" "0" "ab" "" "" "POST" "/p"
        []).2.VerifySubmission
        ⟨fun _ => [0], fun _ _ => [171]⟩ 0 "1.2.3.4" "cid" "0" "ab" "" "" "POST" "/p" []).1
      = .challengeMissing ∧
    ((ChallengeManager.VerifySubmission
        ⟨120 * nsPerSecond, 90 * nsPerSecond, 5, 600 * nsPerSecond,
         [("cid", ⟨⟨"cid", "sec", "non", 0, "", 120 * nsPerSecond⟩, "1.2.3.4", false, 0⟩)], []⟩
        ⟨fun _ => [0], fun _ _ => [171]⟩ 0 "1.2.3.4" "cid" "0" "ab" "" "" "POST" "/p"
        []).2.VerifySubmission
        ⟨fun _ => [0], fun _ _ => [171]⟩ 0 "1.2.3.4" "cid" "0" "ab" "" "" "POST" "/p" []).1
      ≠ .challengeUsed := by
  decide

theorem single_use_witness :
    ChallengeManager.VerifySubmission
        ⟨120 * nsPerSecond, 90 * nsPerSecond, 5, 600 * nsPerSecond,
         [("cid", ⟨⟨"cid", "sec", "non", 0, "", 120 * nsPerSecond⟩, "1.2.3.4", false, 0⟩)], []⟩
        ⟨fun _ => [0], fun _ _ => [171]⟩ 0 "1.2.3.4" "cid" "0" "ab" "" "" "POST" "/p" []
      = (.ok,
         { cleanup 0
             ⟨120 * nsPerSecond, 90 * nsPerSecond, 5, 600 * nsPerSecond,
              [("cid", ⟨⟨"cid", "sec", "non", 0, "", 120 * nsPerSecond⟩, "1.2.3.4", false, 0⟩)],
              []⟩ with
           records :=
             aerase
               (cleanup 0
                 ⟨120 * nsPerSecond, 90 * nsPerSecond, 5, 600 * nsPerSecond,
                  [("cid", ⟨⟨"cid", "sec", "non", 0, "", 120 * nsPerSecond⟩, "1.2.3.4", false,
                    0⟩)],
                  []⟩).records "cid" }) ∧
    ((ChallengeManager.VerifySubmission
        ⟨120 * nsPerSecond, 90 * nsPerSecond, 5, 600 * nsPerSecond,
         [("cid", ⟨⟨"cid", "sec", "non", 0, "", 120 * nsPerSecond⟩, "1.2.3.4", false, 0⟩)], []⟩
        ⟨fun _ => [0], fun _ _ => [171]⟩ 0 "1.2.3.4" "cid" "0" "ab" "" "" "POST" "/p"
        []).2.VerifySubmission
        ⟨fun _ => [0], fun _ _ => [171]⟩ 5 "1.2.3.4" "cid" "1" "zz" "" "" "GET" "/q" [1]).1
      = .challengeMissing :=
  ⟨(single_use ⟨fun _ => [0], fun _ _ => [171]⟩
      ⟨120 * nsPerSecond, 90 * nsPerSecond, 5, 600 * nsPerSecond,
       [("cid", ⟨⟨"cid", "sec", "non", 0, "", 120 * nsPerSecond⟩, "1.2.3.4", false, 0⟩)], []⟩
      0 "1.2.3.4" "cid" "0" "ab" "" "" "POST" "/p" []
      ⟨⟨"cid", "sec", "non", 0, "", 120 * nsPerSecond⟩, "1.2.3.4", false, 0⟩ 0
      (by decide) (by decide) (by decide) (by decide) (by decide) (by decide) (by decide)
      (Or.inl (by decide)) (by decide)).1,
   (single_use ⟨fun _ => [0], fun _ _ => [171]⟩
      ⟨120 * nsPerSecond, 90 * nsPerSecond, 5, 600 * nsPerSecond,
       [("cid", ⟨⟨"cid", "sec", "non", 0, "", 120 * nsPerSecond⟩, "1.2.3.4", false, 0⟩)], []⟩
      0 "1.2.3.4" "cid" "0" "ab" "" "" "POST" "/p" []
      ⟨⟨"cid", "sec", "non", 0, "", 120 * nsPerSecond⟩, "1.2.3.4", false, 0⟩ 0
      (by decide) (by decide) (by decide) (by decide) (by decide) (by decide) (by decide)
      (Or.inl (by decide)) (by decide)).2 5 "1" "zz" "" "" "GET" "/q" [1] (by decide)⟩

/-- C6: with positive PoW difficulty bits and a well-formed nonce the
proof of work is judged on the SHA-256 digest of
`UPPER(method)\npath\ntimestamp\nhex(SHA256(body))\nchallengeId\npowSalt\npowNonce`:
when the optional pow-hash pre-check is absent, the submission passes
the PoW stage (reaching signature checking, i.e. ending `ok` or
`SignatureInvalid`) iff that digest has at least `powBits` leading zero
bits, counted MSB-first across the byte sequence; a digest with fewer
leading zero bits always yields `PoWInvalid`. -/
theorem pow_difficulty (h : HashPrims) (m : ChallengeManager) (now : Int)
    (clientIP challengeID timestampRaw signatureRaw powNonceRaw powHashRaw method path : String)
    (body : List Nat) (record : ChallengeRecord) (ts : Int)
    (hnb : isBlockedAt (cleanup now m).blockedClientIP clientIP now = false)
    (hrec : alookup (cleanup now m).records challengeID = some record)
    (hused : record.used = false)
    (hexp : ¬ record.bundle.expiresAt < now)
    (hip : record.issuedIP = clientIP)
    (hts : parseInt64 timestampRaw = some ts)
    (habs : |now - ts * nsPerSecond| ≤ m.timestampSkew)
    (hpb : 0 < record.bundle.powBits)
    (hne : trimGo powNonceRaw ≠ "")
    (hlen : (strBytes (trimGo powNonceRaw)).length ≤ 128)
    (hdb : ∀ b ∈ h.sha256 (strBytes (buildPoWMessage method path timestampRaw
        (hexEncode (h.sha256 body)) challengeID record.bundle.powSalt (trimGo powNonceRaw))),
      b < 256) :
    (∀ me pa t bh cid sa n2, buildPoWMessage me pa t bh cid sa n2
      = toUpperStr me ++ "\n" ++ pa ++ "\n" ++ t ++ "\n" ++ bh ++ "\n" ++ cid ++ "\n" ++ sa
        ++ "\n" ++ n2) ∧
    (trimGo powHashRaw = "" →
      (((m.VerifySubmission h now clientIP challengeID timestampRaw signatureRaw powNonceRaw
            powHashRaw method path body).1 = .ok ∨
        (m.VerifySubmission h now clientIP challengeID timestampRaw signatureRaw powNonceRaw
            powHashRaw method path body).1 = .signatureInvalid) ↔
        record.bundle.powBits ≤ (leadingZeroCount (digestBits (h.sha256 (strBytes
          (buildPoWMessage method path timestampRaw (hexEncode (h.sha256 body)) challengeID
            record.bundle.powSalt (trimGo powNonceRaw))))) : Int))) ∧
    ((leadingZeroCount (digestBits (h.sha256 (strBytes (buildPoWMessage method path
          timestampRaw (hexEncode (h.sha256 body)) challengeID record.bundle.powSalt
          (trimGo powNonceRaw))))) : Int) < record.bundle.powBits →
      m.VerifySubmission h now clientIP challengeID timestampRaw signatureRaw powNonceRaw
          powHashRaw method path body
        = (.powInvalid, registerFailure (cleanup now m) now clientIP challengeID record)) := by
  have hred := verifyChecks_reduce h (cleanup now m) now clientIP challengeID timestampRaw
    signatureRaw powNonceRaw powHashRaw method path body record ts hnb hrec hused hexp hip
    hts habs
  have hbridge := hasLeadingZeroBits_iff
    (h.sha256 (strBytes (buildPoWMessage method path timestampRaw
      (hexEncode (h.sha256 body)) challengeID record.bundle.powSalt (trimGo powNonceRaw))))
    record.bundle.powBits hdb
  have hfail : (leadingZeroCount (digestBits (h.sha256 (strBytes (buildPoWMessage method path
        timestampRaw (hexEncode (h.sha256 body)) challengeID record.bundle.powSalt
        (trimGo powNonceRaw))))) : Int) < record.bundle.powBits →
      m.VerifySubmission h now clientIP challengeID timestampRaw signatureRaw powNonceRaw
          powHashRaw method path body
        = (.powInvalid, registerFailure (cleanup now m) now clientIP challengeID record) := by
    intro hlz
    have hfalse : hasLeadingZeroBits
        (h.sha256 (strBytes (buildPoWMessage method path timestampRaw
          (hexEncode (h.sha256 body)) challengeID record.bundle.powSalt (trimGo powNonceRaw))))
        record.bundle.powBits = false := by
      rcases Bool.eq_false_or_eq_true (hasLeadingZeroBits
          (h.sha256 (strBytes (buildPoWMessage method path timestampRaw
            (hexEncode (h.sha256 body)) challengeID record.bundle.powSalt
            (trimGo powNonceRaw)))) record.bundle.powBits) with hc | hc
      · exact absurd (hbridge.mp hc) (by omega)
      · exact hc
    unfold ChallengeManager.VerifySubmission
    rw [hred]
    exact powStage_digest_fail h (cleanup now m) now clientIP challengeID record timestampRaw
      signatureRaw powNonceRaw powHashRaw method path (hexEncode (h.sha256 body)) hpb hne
      hlen hfalse
  refine ⟨fun me pa t bh cid sa n2 => rfl, ?_, hfail⟩
  intro hph
  constructor
  · intro hor
    by_contra hnot
    have := hfail (by omega)
    rcases hor with hc | hc <;> rw [this] at hc <;> cases hc
  · intro hle
    have htrue := hbridge.mpr hle
    unfold ChallengeManager.VerifySubmission
    rw [hred, powStage_pass h (cleanup now m) now clientIP challengeID record timestampRaw
      signatureRaw powNonceRaw powHashRaw method path (hexEncode (h.sha256 body)) hpb hne
      hlen htrue hph]
    unfold signatureStage
    dsimp only
    split
    · right
      rfl
    · left
      rfl

theorem pow_difficulty_witness :
    ChallengeManager.VerifySubmission
        ⟨120 * nsPerSecond, 90 * nsPerSecond, 5, 600 * nsPerSecond,
         [("cid", ⟨⟨"cid", "sec", "non", 8, "salt", 120 * nsPerSecond⟩, "1.2.3.4", false, 0⟩)],
         []⟩
        ⟨fun _ => [255], fun _ _ => [171]⟩ 0 "1.2.3.4" "cid" "0" "ab" "nonce" "" "POST" "/p" []
      = (.powInvalid,
         registerFailure
           (cleanup 0
             ⟨120 * nsPerSecond, 90 * nsPerSecond, 5, 600 * nsPerSecond,
              [("cid", ⟨⟨"cid", "sec", "non", 8, "salt", 120 * nsPerSecond⟩, "1.2.3.4", false, 0⟩)],
              []⟩)
           0 "1.2.3.4" "cid"
           ⟨⟨"cid", "sec", "non", 8, "salt", 120 * nsPerSecond⟩, "1.2.3.4", false, 0⟩) :=
  (pow_difficulty ⟨fun _ => [255], fun _ _ => [171]⟩
      ⟨120 * nsPerSecond, 90 * nsPerSecond, 5, 600 * nsPerSecond,
       [("cid", ⟨⟨"cid", "sec", "non", 8, "salt", 120 * nsPerSecond⟩, "1.2.3.4", false, 0⟩)], []⟩
      0 "1.2.3.4" "cid" "0" "ab" "nonce" "" "POST" "/p" []
      ⟨⟨"cid", "sec", "non", 8, "salt", 120 * nsPerSecond⟩, "1.2.3.4", false, 0⟩ 0
      (by decide) (by decide) (by decide) (by decide) (by decide) (by decide) (by decide)
      (by decide) (by decide) (by decide) (by decide)).2.2 (by decide)

theorem challengeManager_ext (a b : ChallengeManager)
    (h1 : a.ttl = b.ttl) (h2 : a.timestampSkew = b.timestampSkew)
    (h3 : a.failThreshold = b.failThreshold) (h4 : a.blockDuration = b.blockDuration)
    (h5 : a.records = b.records) (h6 : a.blockedClientIP = b.blockedClientIP) : a = b := by
  cases a
  cases b
  simp_all

theorem cleanup_stable_of_all (now : Int) (mm : ChallengeManager)
    (hr : ∀ x ∈ mm.records, (!decide (x.2.bundle.expiresAt < now)) = true)
    (hb : ∀ x ∈ mm.blockedClientIP, (!decide (now > x.2)) = true) :
    cleanup now mm = mm := by
  unfold cleanup
  exact challengeManager_ext _ _ rfl rfl rfl rfl
    (filter_eq_self_of_all hr) (filter_eq_self_of_all hb)

theorem sigfail_step (h : HashPrims) (m : ChallengeManager) (now : Int)
    (clientIP challengeID timestampRaw s pn ph method path : String)
    (body : List Nat) (record : ChallengeRecord) (ts : Int)
    (hnbl : alookup (cleanup now m).blockedClientIP clientIP = none)
    (hrec : alookup (cleanup now m).records challengeID = some record)
    (hused : record.used = false)
    (hexp : ¬ record.bundle.expiresAt < now)
    (hip : record.issuedIP = clientIP)
    (hpb : record.bundle.powBits ≤ 0)
    (hts : parseInt64 timestampRaw = some ts)
    (habs : |now - ts * nsPerSecond| ≤ (cleanup now m).timestampSkew)
    (hsig : toLowerStr s ≠ toLowerStr (expectedSig h record timestampRaw method path
      (hexEncode (h.sha256 body)))) :
    m.VerifySubmission h now clientIP challengeID timestampRaw s pn ph method path body
      = (.signatureInvalid, registerFailure (cleanup now m) now clientIP challengeID record) := by
  have hnb : isBlockedAt (cleanup now m).blockedClientIP clientIP now = false := by
    unfold isBlockedAt
    rw [hnbl]
  have hred := verifyChecks_reduce h (cleanup now m) now clientIP challengeID timestampRaw
    s pn ph method path body record ts hnb hrec hused hexp hip hts habs
  unfold ChallengeManager.VerifySubmission
  rw [hred, powStage_nonpow h (cleanup now m) now clientIP challengeID record timestampRaw
    s pn ph method path (hexEncode (h.sha256 body)) hpb]
  exact signatureStage_fail h (cleanup now m) now clientIP challengeID record timestampRaw
    s method path (hexEncode (h.sha256 body)) hsig

theorem verifyChain_nil (h : HashPrims) (now : Int)
    (clientIP challengeID timestampRaw pn ph method path : String) (body : List Nat)
    (mm : ChallengeManager) :
    verifyChain h now clientIP challengeID timestampRaw pn ph method path body mm [] = ([], mm) :=
  rfl

theorem verifyChain_cons (h : HashPrims) (now : Int)
    (clientIP challengeID timestampRaw pn ph method path : String) (body : List Nat)
    (mm : ChallengeManager) (s : String) (rest : List String) :
    verifyChain h now clientIP challengeID timestampRaw pn ph method path body mm (s :: rest)
      = ((mm.VerifySubmission h now clientIP challengeID timestampRaw s pn ph method path
            body).1 ::
          (verifyChain h now clientIP challengeID timestampRaw pn ph method path body
            (mm.VerifySubmission h now clientIP challengeID timestampRaw s pn ph method path
              body).2 rest).1,
         (verifyChain h now clientIP challengeID timestampRaw pn ph method path body
            (mm.VerifySubmission h now clientIP challengeID timestampRaw s pn ph method path
              body).2 rest).2) :=
  rfl

theorem chain_blocks (h : HashPrims) (m : ChallengeManager) (now : Int)
    (clientIP challengeID timestampRaw pn ph method path : String) (body : List Nat) (ts : Int)
    (hts : parseInt64 timestampRaw = some ts)
    (habs : |now - ts * nsPerSecond| ≤ m.timestampSkew) :
    ∀ (sigs : List String) (mm : ChallengeManager) (r : ChallengeRecord),
      sigs ≠ [] →
      cleanup now mm = mm →
      mm.timestampSkew = m.timestampSkew →
      mm.failThreshold = m.failThreshold →
      mm.blockDuration = m.blockDuration →
      alookup mm.blockedClientIP clientIP = none →
      alookup mm.records challengeID = some r →
      r.used = false →
      ¬ r.bundle.expiresAt < now →
      r.issuedIP = clientIP →
      r.bundle.powBits ≤ 0 →
      (∀ s ∈ sigs, toLowerStr s ≠ toLowerStr (expectedSig h r timestampRaw method path
        (hexEncode (h.sha256 body)))) →
      r.failCount + sigs.length = m.failThreshold →
      ∃ mf, verifyChain h now clientIP challengeID timestampRaw pn ph method path body mm sigs
          = (List.replicate sigs.length .signatureInvalid, mf) ∧
        alookup mf.blockedClientIP clientIP = some (now + m.blockDuration) := by
  intro sigs
  induction sigs with
  | nil =>
    intro mm r hne
    exact absurd rfl hne
  | cons s rest ih =>
    intro mm r hne hstab hskew hthr hbd hnbl hrec hused hexp hip hpb hsig hcount
    have hnbl' : alookup (cleanup now mm).blockedClientIP clientIP = none := by
      rw [hstab]
      exact hnbl
    have hrec' : alookup (cleanup now mm).records challengeID = some r := by
      rw [hstab]
      exact hrec
    have habs' : |now - ts * nsPerSecond| ≤ (cleanup now mm).timestampSkew := by
      rw [hstab, hskew]
      exact habs
    have hstep := sigfail_step h mm now clientIP challengeID timestampRaw s pn ph method path
      body r ts hnbl' hrec' hused hexp hip hpb hts habs' (hsig s (by simp))
    rw [hstab] at hstep
    have hallrec : ∀ x ∈ mm.records, (!decide (x.2.bundle.expiresAt < now)) = true := by
      intro x hx
      have hx2 : x ∈ List.filter (fun q => !decide (q.2.bundle.expiresAt < now)) mm.records := by
        have hx3 : x ∈ (cleanup now mm).records := by
          rw [hstab]
          exact hx
        exact hx3
      exact List.of_mem_filter (p := fun (q : String × ChallengeRecord) => !decide (q.2.bundle.expiresAt < now)) hx2
    have hallblk : ∀ x ∈ mm.blockedClientIP, (!decide (now > x.2)) = true := by
      intro x hx
      have hx2 : x ∈ List.filter (fun q => !decide (now > q.2)) mm.blockedClientIP := by
        have hx3 : x ∈ (cleanup now mm).blockedClientIP := by
          rw [hstab]
          exact hx
        exact hx3
      exact List.of_mem_filter (p := fun (q : String × Int) => !decide (now > q.2)) hx2
    cases rest with
    | nil =>
      have hreach : mm.failThreshold ≤ r.failCount + 1 := by
        rw [hthr]
        simp only [List.length_cons, List.length_nil] at hcount
        omega
      rw [registerFailure_reach mm now clientIP challengeID r hreach] at hstep
      refine ⟨{ mm with
          blockedClientIP := ainsert mm.blockedClientIP clientIP (now + mm.blockDuration),
          records := aerase mm.records challengeID }, ?_, ?_⟩
      · rw [verifyChain_cons, hstep]
        dsimp only
        rw [verifyChain_nil]
        rfl
      · rw [← hbd]
        exact alookup_ainsert_self _ _ _
    | cons s2 rest2 =>
      have hlt : r.failCount + 1 < mm.failThreshold := by
        rw [hthr]
        simp only [List.length_cons] at hcount
        omega
      rw [registerFailure_below_bump mm now clientIP challengeID r hlt] at hstep
      have hstab' : cleanup now (bumpRecord mm challengeID r) = bumpRecord mm challengeID r :=
        cleanup_stable_of_all now _
          (all_ainsert hallrec
            (by simp only [Bool.not_eq_true', decide_eq_false_iff_not]; exact hexp))
          hallblk
      obtain ⟨mf, hchain, hlook⟩ := ih (bumpRecord mm challengeID r) (bumpFail r)
        (by simp) hstab' hskew hthr hbd hnbl (alookup_ainsert_self _ _ _) hused hexp hip hpb
        (fun s3 hs3 => hsig s3 (List.mem_cons_of_mem _ hs3))
        (by simp only [List.length_cons] at hcount ⊢
            show r.failCount + 1 + (rest2.length + 1) = m.failThreshold
            omega)
      refine ⟨mf, ?_, hlook⟩
      rw [verifyChain_cons, hstep]
      dsimp only
      rw [hchain]
      rfl

theorem cleanup_idem (now : Int) (m : ChallengeManager) :
    cleanup now (cleanup now m) = cleanup now m := by
  apply cleanup_stable_of_all
  · intro x hx
    exact List.of_mem_filter
      (p := fun (q : String × ChallengeRecord) => !decide (q.2.bundle.expiresAt < now)) hx
  · intro x hx
    exact List.of_mem_filter (p := fun (q : String × Int) => !decide (now > q.2)) hx

theorem verifyChain_cleanup_start (h : HashPrims) (m : ChallengeManager) (now : Int)
    (clientIP challengeID timestampRaw pn ph method path : String) (body : List Nat)
    (sigs : List String) (hne : sigs ≠ []) :
    verifyChain h now clientIP challengeID timestampRaw pn ph method path body m sigs
      = verifyChain h now clientIP challengeID timestampRaw pn ph method path body
          (cleanup now m) sigs := by
  cases sigs with
  | nil => cases hne rfl
  | cons s rest =>
    rw [verifyChain_cons, verifyChain_cons]
    have hv : m.VerifySubmission h now clientIP challengeID timestampRaw s pn ph method path
        body = (cleanup now m).VerifySubmission h now clientIP challengeID timestampRaw s pn
          ph method path body := by
      unfold ChallengeManager.VerifySubmission
      rw [cleanup_idem]
    rw [hv]

/-- C2 (amended): with threshold 5, five consecutive invalid-signature
submissions against the SAME challenge record issued to one client
address all fail `SignatureInvalid` and leave the address blocked for
`blockDuration`; until that duration elapses, every further
`VerifySubmission` from the address — including one made right after
obtaining a brand-new challenge, with any signature — returns
`ClientBlocked`.  (Failures spread over different records do not
accumulate: see the counterexample.) -/
theorem progressive_block (h : HashPrims) (m : ChallengeManager) (now : Int)
    (clientIP challengeID timestampRaw s1 s2 s3 s4 s5 pn ph method path : String)
    (body : List Nat) (record : ChallengeRecord) (ts : Int)
    (hth : m.failThreshold = 5)
    (hnbl : alookup (cleanup now m).blockedClientIP clientIP = none)
    (hrec : alookup (cleanup now m).records challengeID = some record)
    (hused : record.used = false)
    (hexp : ¬ record.bundle.expiresAt < now)
    (hip : record.issuedIP = clientIP)
    (hfc : record.failCount = 0)
    (hpb : record.bundle.powBits ≤ 0)
    (hts : parseInt64 timestampRaw = some ts)
    (habs : |now - ts * nsPerSecond| ≤ m.timestampSkew)
    (hsig : ∀ s ∈ [s1, s2, s3, s4, s5], toLowerStr s ≠ toLowerStr (expectedSig h record
      timestampRaw method path (hexEncode (h.sha256 body)))) :
    (verifyChain h now clientIP challengeID timestampRaw pn ph method path body m
        [s1, s2, s3, s4, s5]).1 = List.replicate 5 .signatureInvalid ∧
    ∀ now2 cid2 ts2 sig2 pn2 ph2 method2 path2 body2 powBits2 secret2 nonce2 salt2,
      now ≤ now2 → now2 < now + m.blockDuration →
      ((verifyChain h now clientIP challengeID timestampRaw pn ph method path body m
          [s1, s2, s3, s4, s5]).2.VerifySubmission h now2 clientIP cid2 ts2 sig2 pn2 ph2
          method2 path2 body2).1 = .clientBlocked ∧
      (((verifyChain h now clientIP challengeID timestampRaw pn ph method path body m
          [s1, s2, s3, s4, s5]).2.Issue now2 clientIP powBits2 cid2 secret2 nonce2
          salt2).2.VerifySubmission h now2 clientIP cid2 ts2 sig2 pn2 ph2 method2 path2
          body2).1 = .clientBlocked := by
  obtain ⟨mf, hchain, hlook⟩ := chain_blocks h m now clientIP challengeID timestampRaw pn ph
    method path body ts hts habs [s1, s2, s3, s4, s5] (cleanup now m) record (by simp)
    (cleanup_idem now m) rfl rfl rfl hnbl hrec hused hexp hip hpb hsig
    (by simp only [List.length_cons, List.length_nil]; omega)
  have hchain' : verifyChain h now clientIP challengeID timestampRaw pn ph method path body m
      [s1, s2, s3, s4, s5] = (List.replicate 5 .signatureInvalid, mf) := by
    rw [verifyChain_cleanup_start h m now clientIP challengeID timestampRaw pn ph method path
      body [s1, s2, s3, s4, s5] (by simp), hchain]
    rfl
  constructor
  · rw [hchain']
  · intro now2 cid2 ts2 sig2 pn2 ph2 method2 path2 body2 powBits2 secret2 nonce2 salt2 hle hlt
    have hlook2 : alookup (cleanup now2 mf).blockedClientIP clientIP
        = some (now + m.blockDuration) := by
      apply alookup_filter hlook
      simp only [Bool.not_eq_true', decide_eq_false_iff_not, gt_iff_lt, not_lt]
      omega
    have hb2 : isBlockedAt (cleanup now2 mf).blockedClientIP clientIP now2 = true := by
      unfold isBlockedAt
      rw [hlook2]
      simp only [decide_eq_true_eq]
      omega
    constructor
    · rw [hchain']
      have hv2 : mf.VerifySubmission h now2 clientIP cid2 ts2 sig2 pn2 ph2 method2 path2 body2
          = (.clientBlocked, cleanup now2 mf) :=
        verifyChecks_blocked h (cleanup now2 mf) now2 clientIP cid2 ts2 sig2 pn2 ph2 method2
          path2 body2 hb2
      rw [hv2]
    · rw [hchain']
      have hlook3 : alookup (List.filter (fun (q : String × Int) => !decide (now2 > q.2))
          (cleanup now2 mf).blockedClientIP) clientIP = some (now + m.blockDuration) := by
        apply alookup_filter hlook2
        simp only [Bool.not_eq_true', decide_eq_false_iff_not, gt_iff_lt, not_lt]
        omega
      have hlook3b : alookup
          (cleanup now2 ((mf.Issue now2 clientIP powBits2 cid2 secret2 nonce2
            salt2).2)).blockedClientIP clientIP = some (now + m.blockDuration) := hlook3
      have hb3 : isBlockedAt
          (cleanup now2 ((mf.Issue now2 clientIP powBits2 cid2 secret2 nonce2
            salt2).2)).blockedClientIP clientIP now2 = true := by
        unfold isBlockedAt
        rw [hlook3b]
        simp only [decide_eq_true_eq]
        omega
      have hv3 : (mf.Issue now2 clientIP powBits2 cid2 secret2 nonce2 salt2).2.VerifySubmission
          h now2 clientIP cid2 ts2 sig2 pn2 ph2 method2 path2 body2
          = (.clientBlocked, cleanup now2 ((mf.Issue now2 clientIP powBits2 cid2 secret2
              nonce2 salt2).2)) :=
        verifyChecks_blocked h
          (cleanup now2 ((mf.Issue now2 clientIP powBits2 cid2 secret2 nonce2 salt2).2)) now2
          clientIP cid2 ts2 sig2 pn2 ph2 method2 path2 body2 hb3
      rw [hv3]

/-- C2 counterexample: with threshold 5, five consecutive
invalid-signature submissions against five DIFFERENT challenge records
issued to the same client address all fail `SignatureInvalid`, yet the
failure counters never accumulate across records, so a sixth submission
carrying a brand-new valid challenge and a correct signature succeeds
instead of returning `ClientBlocked`. -/
theorem progressive_block_cex :
    (ChallengeManager.VerifySubmission
        ⟨120 * nsPerSecond, 90 * nsPerSecond, 5, 600 * nsPerSecond,
         [("c0", ⟨⟨"c0", "sec", "non", 0, "", 120 * nsPerSecond⟩, "1.2.3.4", false, 0⟩), ("c1", ⟨⟨"c1", "sec", "non", 0, "", 120 * nsPerSecond⟩, "1.2.3.4", false, 0⟩), ("c2", ⟨⟨"c2", "sec", "non", 0, "", 120 * nsPerSecond⟩, "1.2.3.4", false, 0⟩), ("c3", ⟨⟨"c3", "sec", "non", 0, "", 120 * nsPerSecond⟩, "1.2.3.4", false, 0⟩), ("c4", ⟨⟨"c4", "sec", "non", 0, "", 120 * nsPerSecond⟩, "1.2.3.4", false, 0⟩), ("c5", ⟨⟨"c5", "sec", "non", 0, "", 120 * nsPerSecond⟩, "1.2.3.4", false, 0⟩)],
         []⟩
        ⟨fun _ => [0], fun _ _ => [171]⟩ 0 "1.2.3.4" "c0" "0" "zz" "" "" "POST" "/p" []).1
      = .signatureInvalid ∧
    ((ChallengeManager.VerifySubmission
        ⟨120 * nsPerSecond, 90 * nsPerSecond, 5, 600 * nsPerSecond,
         [("c0", ⟨⟨"c0", "sec", "non", 0, "", 120 * nsPerSecond⟩, "1.2.3.4", false, 0⟩), ("c1", ⟨⟨"c1", "sec", "non", 0, "", 120 * nsPerSecond⟩, "1.2.3.4", false, 0⟩), ("c2", ⟨⟨"c2", "sec", "non", 0, "", 120 * nsPerSecond⟩, "1.2.3.4", false, 0⟩), ("c3", ⟨⟨"c3", "sec", "non", 0, "", 120 * nsPerSecond⟩, "1.2.3.4", false, 0⟩), ("c4", ⟨⟨"c4", "sec", "non", 0, "", 120 * nsPerSecond⟩, "1.2.3.4", false, 0⟩), ("c5", ⟨⟨"c5", "sec", "non", 0, "", 120 * nsPerSecond⟩, "1.2.3.4", false, 0⟩)],
         []⟩
        ⟨fun _ => [0], fun _ _ => [171]⟩ 0 "1.2.3.4" "c0" "0" "zz" "" "" "POST" "/p" []).2.VerifySubmission
        ⟨fun _ => [0], fun _ _ => [171]⟩ 0 "1.2.3.4" "c1" "0" "zz" "" "" "POST" "/p" []).1
      = .signatureInvalid ∧
    (((ChallengeManager.VerifySubmission
        ⟨120 * nsPerSecond, 90 * nsPerSecond, 5, 600 * nsPerSecond,
         [("c0", ⟨⟨"c0", "sec", "non", 0, "", 120 * nsPerSecond⟩, "1.2.3.4", false, 0⟩), ("c1", ⟨⟨"c1", "sec", "non", 0, "", 120 * nsPerSecond⟩, "1.2.3.4", false, 0⟩), ("c2", ⟨⟨"c2", "sec", "non", 0, "", 120 * nsPerSecond⟩, "1.2.3.4", false, 0⟩), ("c3", ⟨⟨"c3", "sec", "non", 0, "", 120 * nsPerSecond⟩, "1.2.3.4", false, 0⟩), ("c4", ⟨⟨"c4", "sec", "non", 0, "", 120 * nsPerSecond⟩, "1.2.3.4", false, 0⟩), ("c5", ⟨⟨"c5", "sec", "non", 0, "", 120 * nsPerSecond⟩, "1.2.3.4", false, 0⟩)],
         []⟩
        ⟨fun _ => [0], fun _ _ => [171]⟩ 0 "1.2.3.4" "c0" "0" "zz" "" "" "POST" "/p" []).2.VerifySubmission
        ⟨fun _ => [0], fun _ _ => [171]⟩ 0 "1.2.3.4" "c1" "0" "zz" "" "" "POST" "/p" []).2.VerifySubmission
        ⟨fun _ => [0], fun _ _ => [171]⟩ 0 "1.2.3.4" "c2" "0" "zz" "" "" "POST" "/p" []).1
      = .signatureInvalid ∧
    ((((ChallengeManager.VerifySubmission
        ⟨120 * nsPerSecond, 90 * nsPerSecond, 5, 600 * nsPerSecond,
         [("c0", ⟨⟨"c0", "sec", "non", 0, "", 120 * nsPerSecond⟩, "1.2.3.4", false, 0⟩), ("c1", ⟨⟨"c1", "sec", "non", 0, "", 120 * nsPerSecond⟩, "1.2.3.4", false, 0⟩), ("c2", ⟨⟨"c2", "sec", "non", 0, "", 120 * nsPerSecond⟩, "1.2.3.4", false, 0⟩), ("c3", ⟨⟨"c3", "sec", "non", 0, "", 120 * nsPerSecond⟩, "1.2.3.4", false, 0⟩), ("c4", ⟨⟨"c4", "sec", "non", 0, "", 120 * nsPerSecond⟩, "1.2.3.4", false, 0⟩), ("c5", ⟨⟨"c5", "sec", "non", 0, "", 120 * nsPerSecond⟩, "1.2.3.4", false, 0⟩)],
         []⟩
        ⟨fun _ => [0], fun _ _ => [171]⟩ 0 "1.2.3.4" "c0" "0" "zz" "" "" "POST" "/p" []).2.VerifySubmission
        ⟨fun _ => [0], fun _ _ => [171]⟩ 0 "1.2.3.4" "c1" "0" "zz" "" "" "POST" "/p" []).2.VerifySubmission
        ⟨fun _ => [0], fun _ _ => [171]⟩ 0 "1.2.3.4" "c2" "0" "zz" "" "" "POST" "/p" []).2.VerifySubmission
        ⟨fun _ => [0], fun _ _ => [171]⟩ 0 "1.2.3.4" "c3" "0" "zz" "" "" "POST" "/p" []).1
      = .signatureInvalid ∧
    (((((ChallengeManager.VerifySubmission
        ⟨120 * nsPerSecond, 90 * nsPerSecond, 5, 600 * nsPerSecond,
         [("c0", ⟨⟨"c0", "sec", "non", 0, "", 120 * nsPerSecond⟩, "1.2.3.4", false, 0⟩), ("c1", ⟨⟨"c1", "sec", "non", 0, "", 120 * nsPerSecond⟩, "1.2.3.4", false, 0⟩), ("c2", ⟨⟨"c2", "sec", "non", 0, "", 120 * nsPerSecond⟩, "1.2.3.4", false, 0⟩), ("c3", ⟨⟨"c3", "sec", "non", 0, "", 120 * nsPerSecond⟩, "1.2.3.4", false, 0⟩), ("c4", ⟨⟨"c4", "sec", "non", 0, "", 120 * nsPerSecond⟩, "1.2.3.4", false, 0⟩), ("c5", ⟨⟨"c5", "sec", "non", 0, "", 120 * nsPerSecond⟩, "1.2.3.4", false, 0⟩)],
         []⟩
        ⟨fun _ => [0], fun _ _ => [171]⟩ 0 "1.2.3.4" "c0" "0" "zz" "" "" "POST" "/p" []).2.VerifySubmission
        ⟨fun _ => [0], fun _ _ => [171]⟩ 0 "1.2.3.4" "c1" "0" "zz" "" "" "POST" "/p" []).2.VerifySubmission
        ⟨fun _ => [0], fun _ _ => [171]⟩ 0 "1.2.3.4" "c2" "0" "zz" "" "" "POST" "/p" []).2.VerifySubmission
        ⟨fun _ => [0], fun _ _ => [171]⟩ 0 "1.2.3.4" "c3" "0" "zz" "" "" "POST" "/p" []).2.VerifySubmission
        ⟨fun _ => [0], fun _ _ => [171]⟩ 0 "1.2.3.4" "c4" "0" "zz" "" "" "POST" "/p" []).1
      = .signatureInvalid ∧
    ((((((ChallengeManager.VerifySubmission
        ⟨120 * nsPerSecond, 90 * nsPerSecond, 5, 600 * nsPerSecond,
         [("c0", ⟨⟨"c0", "sec", "non", 0, "", 120 * nsPerSecond⟩, "1.2.3.4", false, 0⟩), ("c1", ⟨⟨"c1", "sec", "non", 0, "", 120 * nsPerSecond⟩, "1.2.3.4", false, 0⟩), ("c2", ⟨⟨"c2", "sec", "non", 0, "", 120 * nsPerSecond⟩, "1.2.3.4", false, 0⟩), ("c3", ⟨⟨"c3", "sec", "non", 0, "", 120 * nsPerSecond⟩, "1.2.3.4", false, 0⟩), ("c4", ⟨⟨"c4", "sec", "non", 0, "", 120 * nsPerSecond⟩, "1.2.3.4", false, 0⟩), ("c5", ⟨⟨"c5", "sec", "non", 0, "", 120 * nsPerSecond⟩, "1.2.3.4", false, 0⟩)],
         []⟩
        ⟨fun _ => [0], fun _ _ => [171]⟩ 0 "1.2.3.4" "c0" "0" "zz" "" "" "POST" "/p" []).2.VerifySubmission
        ⟨fun _ => [0], fun _ _ => [171]⟩ 0 "1.2.3.4" "c1" "0" "zz" "" "" "POST" "/p" []).2.VerifySubmission
        ⟨fun _ => [0], fun _ _ => [171]⟩ 0 "1.2.3.4" "c2" "0" "zz" "" "" "POST" "/p" []).2.VerifySubmission
        ⟨fun _ => [0], fun _ _ => [171]⟩ 0 "1.2.3.4" "c3" "0" "zz" "" "" "POST" "/p" []).2.VerifySubmission
        ⟨fun _ => [0], fun _ _ => [171]⟩ 0 "1.2.3.4" "c4" "0" "zz" "" "" "POST" "/p" []).2.VerifySubmission
        ⟨fun _ => [0], fun _ _ => [171]⟩ 0 "1.2.3.4" "c5" "0" "ab" "" "" "POST" "/p" []).1
      = .ok ∧
    ((((((ChallengeManager.VerifySubmission
        ⟨120 * nsPerSecond, 90 * nsPerSecond, 5, 600 * nsPerSecond,
         [("c0", ⟨⟨"c0", "sec", "non", 0, "", 120 * nsPerSecond⟩, "1.2.3.4", false, 0⟩), ("c1", ⟨⟨"c1", "sec", "non", 0, "", 120 * nsPerSecond⟩, "1.2.3.4", false, 0⟩), ("c2", ⟨⟨"c2", "sec", "non", 0, "", 120 * nsPerSecond⟩, "1.2.3.4", false, 0⟩), ("c3", ⟨⟨"c3", "sec", "non", 0, "", 120 * nsPerSecond⟩, "1.2.3.4", false, 0⟩), ("c4", ⟨⟨"c4", "sec", "non", 0, "", 120 * nsPerSecond⟩, "1.2.3.4", false, 0⟩), ("c5", ⟨⟨"c5", "sec", "non", 0, "", 120 * nsPerSecond⟩, "1.2.3.4", false, 0⟩)],
         []⟩
        ⟨fun _ => [0], fun _ _ => [171]⟩ 0 "1.2.3.4" "c0" "0" "zz" "" "" "POST" "/p" []).2.VerifySubmission
        ⟨fun _ => [0], fun _ _ => [171]⟩ 0 "1.2.3.4" "c1" "0" "zz" "" "" "POST" "/p" []).2.VerifySubmission
        ⟨fun _ => [0], fun _ _ => [171]⟩ 0 "1.2.3.4" "c2" "0" "zz" "" "" "POST" "/p" []).2.VerifySubmission
        ⟨fun _ => [0], fun _ _ => [171]⟩ 0 "1.2.3.4" "c3" "0" "zz" "" "" "POST" "/p" []).2.VerifySubmission
        ⟨fun _ => [0], fun _ _ => [171]⟩ 0 "1.2.3.4" "c4" "0" "zz" "" "" "POST" "/p" []).2.VerifySubmission
        ⟨fun _ => [0], fun _ _ => [171]⟩ 0 "1.2.3.4" "c5" "0" "ab" "" "" "POST" "/p" []).1
      ≠ .clientBlocked := by
  decide

theorem progressive_block_witness :
    (verifyChain ⟨fun _ => [0], fun _ _ => [171]⟩ 0 "1.2.3.4" "cid" "0" "" "" "POST" "/p" []
        ⟨120 * nsPerSecond, 90 * nsPerSecond, 5, 600 * nsPerSecond,
         [("cid", ⟨⟨"cid", "sec", "non", 0, "", 120 * nsPerSecond⟩, "1.2.3.4", false, 0⟩)], []⟩
        ["zz", "zz", "zz", "zz", "zz"]).1 = List.replicate 5 .signatureInvalid ∧
    ((verifyChain ⟨fun _ => [0], fun _ _ => [171]⟩ 0 "1.2.3.4" "cid" "0" "" "" "POST" "/p" []
        ⟨120 * nsPerSecond, 90 * nsPerSecond, 5, 600 * nsPerSecond,
         [("cid", ⟨⟨"cid", "sec", "non", 0, "", 120 * nsPerSecond⟩, "1.2.3.4", false, 0⟩)], []⟩
        ["zz", "zz", "zz", "zz", "zz"]).2.VerifySubmission
        ⟨fun _ => [0], fun _ _ => [171]⟩ 1 "1.2.3.4" "new" "0" "ab" "" "" "POST" "/p" []).1
      = .clientBlocked :=
  ⟨(progressive_block ⟨fun _ => [0], fun _ _ => [171]⟩
      ⟨120 * nsPerSecond, 90 * nsPerSecond, 5, 600 * nsPerSecond,
       [("cid", ⟨⟨"cid", "sec", "non", 0, "", 120 * nsPerSecond⟩, "1.2.3.4", false, 0⟩)], []⟩
      0 "1.2.3.4" "cid" "0" "zz" "zz" "zz" "zz" "zz" "" "" "POST" "/p" []
      ⟨⟨"cid", "sec", "non", 0, "", 120 * nsPerSecond⟩, "1.2.3.4", false, 0⟩ 0
      (by decide) (by decide) (by decide) (by decide) (by decide) (by decide) (by decide)
      (by decide) (by decide) (by decide) (by decide)).1,
   ((progressive_block ⟨fun _ => [0], fun _ _ => [171]⟩
      ⟨120 * nsPerSecond, 90 * nsPerSecond, 5, 600 * nsPerSecond,
       [("cid", ⟨⟨"cid", "sec", "non", 0, "", 120 * nsPerSecond⟩, "1.2.3.4", false, 0⟩)], []⟩
      0 "1.2.3.4" "cid" "0" "zz" "zz" "zz" "zz" "zz" "" "" "POST" "/p" []
      ⟨⟨"cid", "sec", "non", 0, "", 120 * nsPerSecond⟩, "1.2.3.4", false, 0⟩ 0
      (by decide) (by decide) (by decide) (by decide) (by decide) (by decide) (by decide)
      (by decide) (by decide) (by decide) (by decide)).2 1 "new" "0" "ab" "" "" "POST" "/p"
      [] 0 "s" "n" "" (by decide) (by decide)).1⟩
